import Mathlib

/-
Verification development for the libsmfparse Standard MIDI File parser
(src/smfparse.c together with its public header src/smfparse.h).

Shallow embedding notes.

Byte streams are modelled as `List Nat`.  The byte-range contract of the
read callback (values 0 to 255) is carried as a hypothesis where a
theorem needs it.  Machine integers (int, int32_t) are modelled as Int
or Nat; no intermediate value in the modelled code paths can overflow
int32_t (chunk lengths are capped at 2^31 - 1, varints at 2^28 - 1,
buffers at 32768 bytes), so no explicit wraparound is required.

The C error codes SMF_ERR_... are distinct negative integers whose
numeric values are declared outside the parser translation unit; all
behaviour in smfparse.c depends only on their identity and on their
being negative, so they are modelled as an inductive type `SmfErr`.

Contract violations (fault(__LINE__) calls, which never return) are
modelled as the distinguished outcome `Fail.fault`.  Allocation faults
inside calloc and realloc are assumed not to occur.

On a parse failure smfparse.c leaves the input source at the partially
consumed position and the parser fields partially updated, and then
makes the error sticky, after which no field other than the status is
ever consulted again.  The model returns failures through `Except` and
therefore does not expose the partially consumed source position; no
theorem below concerns the post-error source position.

The artifact smfparse.c contains two references that the repository
documents as slips (the variable pi for pv in readUint32BE, and the
field name buf_len for blen inside parseEvent); the model uses the
documented intended names pv and blen.
-/

deriving instance DecidableEq for Except

namespace Smfparse

/-! ## Error codes (the SMF_ERR constants) -/

inductive SmfErr where
  | ioerr        -- SMF_ERR_IO
  | huge_file    -- SMF_ERR_HUGE_FILE
  | open_file    -- SMF_ERR_OPEN_FILE
  | eof_err      -- SMF_ERR_EOF
  | huge_chunk   -- SMF_ERR_HUGE_CHUNK
  | signature    -- SMF_ERR_SIGNATURE
  | header_err   -- SMF_ERR_HEADER
  | midi_fmt     -- SMF_ERR_MIDI_FMT
  | no_tracks    -- SMF_ERR_NO_TRACKS
  | multi_track  -- SMF_ERR_MULTI_TRACK
  | multi_head   -- SMF_ERR_MULTI_HEAD
  | open_track   -- SMF_ERR_OPEN_TRACK
  | long_varint  -- SMF_ERR_LONG_VARINT
  | run_status   -- SMF_ERR_RUN_STATUS
  | big_payload  -- SMF_ERR_BIG_PAYLOAD
  | bad_event    -- SMF_ERR_BAD_EVENT
  | seq_num_err  -- SMF_ERR_SEQ_NUM
  | ch_pfx_err   -- SMF_ERR_CH_PREFIX
  | bad_eot      -- SMF_ERR_BAD_EOT
  | set_tempo    -- SMF_ERR_SET_TEMPO
  | smpte_off    -- SMF_ERR_SMPTE_OFF
  | time_sig_err -- SMF_ERR_TIME_SIG
  | key_sig_err  -- SMF_ERR_KEY_SIG
  | midi_data    -- SMF_ERR_MIDI_DATA
deriving DecidableEq, Repr

/-- Outcome layer: a format or I/O error carrying an SMF_ERR code, or a
contract violation (a fault(__LINE__) call, which kills the process). -/
inductive Fail where
  | ferr (e : SmfErr)
  | fault
deriving DecidableEq, Repr

/-! ## Input source objects (SMFSOURCE)

An SMFSOURCE couples a lifecycle state (the SOURCE_STATE constants)
with client callbacks operating on a private instance payload.  The
callbacks are modelled as pure state transformers on an instance type.
The read callback returns an Int: a byte 0..255, SMFSOURCE_EOF = -1, or
SMFSOURCE_IOERR = -2. -/

inductive SourceState where
  | normal  -- SOURCE_STATE_NORMAL
  | srcErr  -- SOURCE_STATE_ERROR
  | double  -- SOURCE_STATE_DOUBLE
  | eofS    -- SOURCE_STATE_EOF
deriving DecidableEq, Repr

/-- The capability vector of an input source: required read callback,
optional rewind and skip callbacks (fClose is resource management only
and plays no part in the modelled operations). -/
structure SourceOps (σ : Type) where
  read : σ → Int × σ
  rewind : Option (σ → Bool × σ)
  skip : Option (σ → Int → Bool × σ)

/-- The SMFSOURCE structure: lifecycle state plus instance payload. -/
structure Source (σ : Type) where
  state : SourceState
  inst : σ
deriving DecidableEq, Repr

/-- smfsource_read (smfparse.c lines 2025-2063): error states report
SMFSOURCE_IOERR without invoking the callback; NORMAL calls through and
records a transition to ERROR or EOF; EOF keeps returning EOF without
invoking the callback. -/
def smfsource_read {σ : Type} (ops : SourceOps σ) (s : Source σ) : Int × Source σ :=
  match s.state with
  | .srcErr => (-2, s)
  | .double => (-2, s)
  | .normal =>
    let r := ops.read s.inst
    if r.1 = -2 then (-2, { state := .srcErr, inst := r.2 })
    else if r.1 = -1 then (-1, { state := .eofS, inst := r.2 })
    else (r.1, { state := .normal, inst := r.2 })
  | .eofS => (-1, s)

/-- smfsource_rewind (smfparse.c lines 1932-1963): fails if no rewind
callback or in DOUBLE state; otherwise attempts the callback, and on
callback failure transitions to DOUBLE.  Note that on callback success
the lifecycle state is left untouched. -/
def smfsource_rewind {σ : Type} (ops : SourceOps σ) (s : Source σ) : Bool × Source σ :=
  match ops.rewind with
  | none => (false, s)
  | some f =>
    if s.state = .double then (false, s)
    else
      let r := f s.inst
      if r.1 then (true, { s with inst := r.2 })
      else (false, { state := .double, inst := r.2 })

/-- The read-simulated skip loop of smfsource_skip (smfparse.c lines
1998-2014), entered in NORMAL state: invokes the read callback up to n
times; EOF stops the loop successfully in EOF state, an I/O error stops
it with failure in ERROR state. -/
def skipLoop {σ : Type} (ops : SourceOps σ) (inst : σ) : Nat → Bool × SourceState × σ
  | 0 => (true, .normal, inst)
  | n + 1 =>
    let r := ops.read inst
    if r.1 = -1 then (true, .eofS, r.2)
    else if r.1 = -2 then (false, .srcErr, r.2)
    else skipLoop ops r.2 n

/-- smfsource_skip (smfparse.c lines 1968-2020): faults on a negative
distance (modelled as none); fails in ERROR or DOUBLE state; performs
work only for a positive distance in NORMAL state, through the skip
callback if present and otherwise through repeated reads. -/
def smfsource_skip {σ : Type} (ops : SourceOps σ) (s : Source σ) (dist : Int) :
    Option (Bool × Source σ) :=
  if dist < 0 then none
  else if s.state = .srcErr ∨ s.state = .double then some (false, s)
  else if 0 < dist ∧ s.state = .normal then
    match ops.skip with
    | some f =>
      let r := f s.inst dist
      if r.1 then some (true, { state := .normal, inst := r.2 })
      else some (false, { state := .srcErr, inst := r.2 })
    | none =>
      let r := skipLoop ops s.inst dist.toNat
      some (r.1, { state := r.2.1, inst := r.2.2 })
  else some (true, s)

/-- A concrete instance payload and capability vector used to evaluate
the source operations at concrete inputs: the read callback would
deliver the byte 65 and the rewind callback always succeeds. -/
def unitOkOps : SourceOps Unit :=
  { read := fun u => (65, u)
    rewind := some (fun u => (true, u))
    skip := none }

/-- A source object in the ERROR lifecycle state over the Unit payload. -/
def errUnitSrc : Source Unit := { state := .srcErr, inst := () }

/-- Claim C1 (code_bug evidence).  A source that supports rewinding, is
in the ERROR state, and whose rewind callback succeeds: smfsource_rewind
reports success yet leaves the state at ERROR instead of NORMAL, so the
following smfsource_read returns SMFSOURCE_IOERR (-2) without invoking
the read callback (which would have delivered the byte 65).  This
contradicts the claim and the documentation of smfsource_rewind in
smfparse.h, which promises that a successful rewind clears the error
and EOF states. -/
theorem c1_rewind_leaves_error_state :
    smfsource_rewind unitOkOps errUnitSrc = (true, errUnitSrc) ∧
    errUnitSrc.state = SourceState.srcErr ∧
    smfsource_read unitOkOps errUnitSrc = (-2, errUnitSrc) := by
  exact ⟨rfl, rfl, rfl⟩

/-- Claim C10.  For every input source in the EOF state and every skip
distance n ≥ 0, smfsource_skip succeeds and returns the source fully
unchanged.  The statement quantifies over every capability vector ops,
so the result is independent of the read and skip callbacks: no
underlying callback is invoked. -/
theorem c10_skip_on_eof_noop {σ : Type} (ops : SourceOps σ) (s : Source σ)
    (n : Int) (hs : s.state = SourceState.eofS) (hn : 0 ≤ n) :
    smfsource_skip ops s n = some (true, s) := by
  unfold smfsource_skip
  rw [hs]
  simp
  omega

/-- Witness for C10 at a concrete source and distance. -/
theorem c10_skip_on_eof_noop_witness :
    smfsource_skip unitOkOps { state := .eofS, inst := () } 5 =
      some (true, { state := .eofS, inst := () }) :=
  c10_skip_on_eof_noop unitOkOps { state := .eofS, inst := () } 5 rfl (by decide)

/-! ## Byte-stream readers over a list-backed source

For the parsing layer the input source is modelled as the list of bytes
remaining to be read: smfsource_read on it yields the head byte, or
SMFSOURCE_EOF once the list is exhausted, and smfsource_skip drops the
requested number of bytes and succeeds (this is the behaviour of a
source in the NORMAL state whose underlying medium raises no I/O
errors; the SMF_ERR_IO propagation paths of the C code are therefore
not exercised by the list-backed model). -/

/-- readUint16BE (smfparse.c lines 371-403): two big-endian bytes;
running out of input is SMF_ERR_EOF. -/
def readUint16BE (src : List Nat) : Except Fail (Nat × List Nat) :=
  match src with
  | b0 :: b1 :: rest => .ok ((b0 <<< 8) ||| b1, rest)
  | _ => .error (.ferr .eof_err)

/-- readUint32BE (smfparse.c lines 421-456): four big-endian bytes into
the variable pv (the artifact writes pi in the parameter check, a
documented slip); running out of input is SMF_ERR_EOF. -/
def readUint32BE (src : List Nat) : Except Fail (Nat × List Nat) :=
  match src with
  | b0 :: b1 :: b2 :: b3 :: rest =>
    .ok ((((((b0 <<< 8) ||| b1) <<< 8) ||| b2) <<< 8) ||| b3, rest)
  | _ => .error (.ferr .eof_err)

/-- readChunkByte (smfparse.c lines 478-514): fails with
SMF_ERR_OPEN_TRACK if the chunk remainder is below one, with
SMF_ERR_EOF if the input is exhausted; otherwise returns the byte and
the decremented remainder. -/
def readChunkByte (src : List Nat) (rem : Int) : Except SmfErr (Nat × List Nat × Int) :=
  if rem < 1 then .error .open_track
  else
    match src with
    | [] => .error .eof_err
    | c :: rest => .ok (c, rest, rem - 1)

/-- The loop of readChunkVar (smfparse.c lines 549-575).  The C code
counts continuation bytes upward in bc and fails once bc reaches 4;
here fuel = 3 - bc counts the continuation bytes still permitted, so
the loop starts with fuel 3 and raises SMF_ERR_LONG_VARINT when a
fourth byte still has its continuation bit set. -/
def readChunkVarLoop : List Nat → Int → Int → Nat → Except SmfErr (Int × List Nat × Int)
  | src, rem, acc, fuel =>
    match readChunkByte src rem with
    | .error e => .error e
    | .ok (c, s, r) =>
      -- result = (result << 7) | (c & 0x7f)
      let acc2 : Int := acc * 128 + ((c % 128 : Nat) : Int)
      if c < 0x80 then .ok (acc2, s, r)
      else
        match fuel with
        | 0 => .error .long_varint
        | fuel + 1 => readChunkVarLoop s r acc2 fuel
  termination_by structural _ _ _ fuel => fuel

/-- readChunkVar (smfparse.c lines 537-579): big-endian base-128
variable-length integer of at most four bytes read from the chunk. -/
def readChunkVar (src : List Nat) (rem : Int) : Except SmfErr (Int × List Nat × Int) :=
  readChunkVarLoop src rem 0 3

/-- Encoder oracle for the round-trip law: the big-endian base-128
encoding of v with the continuation bit set on every byte but the last
(minimal length; intended for v below 2^28, where it emits at most four
bytes). -/
def encodeVar (v : Nat) : List Nat :=
  if v < 128 then [v]
  else if v < 128 ^ 2 then [v / 128 + 128, v % 128]
  else if v < 128 ^ 3 then
    [v / 128 ^ 2 + 128, v / 128 % 128 + 128, v % 128]
  else
    [v / 128 ^ 3 + 128, v / 128 ^ 2 % 128 + 128, v / 128 % 128 + 128, v % 128]

/-! ### Laws of the chunk varint reader (claim C4) -/

lemma readChunkByte_cons (c : Nat) (rest : List Nat) (rem : Int) (h : 1 ≤ rem) :
    readChunkByte (c :: rest) rem = .ok (c, rest, rem - 1) := by
  unfold readChunkByte
  rw [if_neg (by omega)]

lemma loop_step_done (c : Nat) (rest : List Nat) (rem acc : Int) (fuel : Nat)
    (hc : c < 128) (hrem : 1 ≤ rem) :
    readChunkVarLoop (c :: rest) rem acc fuel = .ok (acc * 128 + (c : Int), rest, rem - 1) := by
  rw [readChunkVarLoop, readChunkByte_cons c rest rem hrem]
  simp [hc, Nat.mod_eq_of_lt hc]

lemma loop_step_cont (c : Nat) (rest : List Nat) (rem acc : Int) (fuel : Nat)
    (hc : 128 ≤ c) (hrem : 1 ≤ rem) (hf : fuel ≠ 0) :
    readChunkVarLoop (c :: rest) rem acc fuel =
      readChunkVarLoop rest (rem - 1) (acc * 128 + ((c % 128 : Nat) : Int)) (fuel - 1) := by
  rcases fuel with _ | f
  · omega
  · rw [readChunkVarLoop, readChunkByte_cons c rest rem hrem]
    simp [Nat.not_lt.mpr hc]

lemma loop_step_overflow (c : Nat) (rest : List Nat) (rem acc : Int)
    (hc : 128 ≤ c) (hrem : 1 ≤ rem) :
    readChunkVarLoop (c :: rest) rem acc 0 = .error .long_varint := by
  rw [readChunkVarLoop, readChunkByte_cons c rest rem hrem]
  simp [Nat.not_lt.mpr hc]

lemma readChunkVar_encode (v : Nat) (rest : List Nat) (rem : Int)
    (hv : v < 2 ^ 28) (hrem : ((encodeVar v).length : Int) ≤ rem) :
    readChunkVar (encodeVar v ++ rest) rem =
      .ok ((v : Int), rest, rem - (encodeVar v).length) := by
  have e2 : (128 : Nat) ^ 2 = 16384 := by norm_num
  have e3 : (128 : Nat) ^ 3 = 2097152 := by norm_num
  have hv28 : v < 268435456 := by omega
  by_cases h1 : v < 128
  · rw [show encodeVar v = [v] from by simp [encodeVar, h1]] at hrem ⊢
    simp only [List.length_cons, List.length_nil, List.cons_append, List.nil_append] at hrem ⊢
    rw [readChunkVar, loop_step_done _ _ _ _ _ h1 (by push_cast at hrem; omega)]
    simp only [Except.ok.injEq, Prod.mk.injEq]
    refine ⟨by omega, trivial, by push_cast; omega⟩
  · by_cases h2 : v < 16384
    · rw [show encodeVar v = [v / 128 + 128, v % 128] from by
        rw [encodeVar, if_neg h1, if_pos (by omega)]] at hrem ⊢
      simp only [List.length_cons, List.length_nil, List.cons_append, List.nil_append] at hrem ⊢
      push_cast at hrem
      rw [readChunkVar, loop_step_cont _ _ _ _ _ (by omega) (by omega) (by omega),
        loop_step_done _ _ _ _ _ (by omega) (by omega)]
      simp only [Except.ok.injEq, Prod.mk.injEq]
      refine ⟨by omega, trivial, by push_cast; omega⟩
    · by_cases h3 : v < 2097152
      · rw [show encodeVar v = [v / 128 ^ 2 + 128, v / 128 % 128 + 128, v % 128] from by
          rw [encodeVar, if_neg h1, if_neg (by omega), if_pos (by omega)]] at hrem ⊢
        rw [e2] at hrem ⊢
        simp only [List.length_cons, List.length_nil, List.cons_append,
          List.nil_append] at hrem ⊢
        push_cast at hrem
        rw [readChunkVar, loop_step_cont _ _ _ _ _ (by omega) (by omega) (by omega),
          loop_step_cont _ _ _ _ _ (by omega) (by omega) (by omega),
          loop_step_done _ _ _ _ _ (by omega) (by omega)]
        simp only [Except.ok.injEq, Prod.mk.injEq]
        refine ⟨by omega, trivial, by push_cast; omega⟩
      · rw [show encodeVar v =
            [v / 128 ^ 3 + 128, v / 128 ^ 2 % 128 + 128, v / 128 % 128 + 128, v % 128] from by
            rw [encodeVar, if_neg h1, if_neg (by omega), if_neg (by omega)]] at hrem ⊢
        rw [e2, e3] at hrem ⊢
        simp only [List.length_cons, List.length_nil, List.cons_append,
          List.nil_append] at hrem ⊢
        push_cast at hrem
        rw [readChunkVar, loop_step_cont _ _ _ _ _ (by omega) (by omega) (by omega),
          loop_step_cont _ _ _ _ _ (by omega) (by omega) (by omega),
          loop_step_cont _ _ _ _ _ (by omega) (by omega) (by omega),
          loop_step_done _ _ _ _ _ (by omega) (by omega)]
        simp only [Except.ok.injEq, Prod.mk.injEq]
        refine ⟨by omega, trivial, by push_cast; omega⟩

lemma loop_result_bound : (fuel : Nat) → (src : List Nat) → (rem acc v : Int) →
    (s : List Nat) → (r : Int) → 0 ≤ acc →
    readChunkVarLoop src rem acc fuel = .ok (v, s, r) →
    0 ≤ v ∧ v < (acc + 1) * 128 ^ (fuel + 1) := by
  intro fuel
  induction fuel with
  | zero =>
    intro src rem acc v s r hacc hok
    rw [readChunkVarLoop] at hok
    rcases hcb : readChunkByte src rem with e | ⟨c, s1, r1⟩ <;> rw [hcb] at hok
    · simp at hok
    · by_cases hc : c < 128
      · simp only [hc, if_pos, if_true, Except.ok.injEq, Prod.mk.injEq] at hok
        obtain ⟨hv, hrest⟩ := hok
        have hp : (128 : Int) ^ (0 + 1) = 128 := by norm_num
        constructor <;> omega
      · simp [hc] at hok
  | succ f ih =>
    intro src rem acc v s r hacc hok
    rw [readChunkVarLoop] at hok
    rcases hcb : readChunkByte src rem with e | ⟨c, s1, r1⟩ <;> rw [hcb] at hok
    · simp at hok
    · by_cases hc : c < 128
      · simp only [hc, if_pos, if_true, Except.ok.injEq, Prod.mk.injEq] at hok
        obtain ⟨hv, hrest⟩ := hok
        refine ⟨by omega, ?_⟩
        calc v < (acc + 1) * 128 := by omega
          _ ≤ (acc + 1) * 128 ^ (f + 1 + 1) := by
                exact mul_le_mul_of_nonneg_left (le_self_pow₀ (by norm_num) (by omega)) (by omega)
      · simp only [hc, if_neg, if_false] at hok
        have hacc2 : (0 : Int) ≤ acc * 128 + ((c % 128 : Nat) : Int) := by omega
        have hres := ih s1 r1 (acc * 128 + ((c % 128 : Nat) : Int)) v s r hacc2 hok
        refine ⟨hres.1, ?_⟩
        have hstep : acc * 128 + ((c % 128 : Nat) : Int) + 1 ≤ (acc + 1) * 128 := by omega
        have hpow : (0 : Int) ≤ 128 ^ (f + 1) := by positivity
        calc v < (acc * 128 + ((c % 128 : Nat) : Int) + 1) * 128 ^ (f + 1) := hres.2
          _ ≤ ((acc + 1) * 128) * 128 ^ (f + 1) := mul_le_mul_of_nonneg_right hstep hpow
          _ = (acc + 1) * 128 ^ (f + 1 + 1) := by ring

lemma encodeVar_length_le (v : Nat) (hv : v < 2 ^ 28) : (encodeVar v).length ≤ 4 := by
  rw [encodeVar]
  split <;> try split
  · simp
  · simp
  all_goals split <;> simp

/-- Claim C4.  The chunk varint reader readChunkVar: (1) decodes the
big-endian base-128 encoding of every v in [0, 2^28 - 1] back to v,
consuming exactly the encoded bytes and decrementing the chunk
remainder by their number; (2) the encoding takes at most 4 bytes;
(3) an input whose fourth varint byte still has the continuation bit
set fails with SMF_ERR_LONG_VARINT; (4) every successfully decoded
result lies in [0, 2^28 - 1]. -/
theorem c4_read_chunk_varint :
    (∀ (v : Nat) (rest : List Nat) (rem : Int), v < 2 ^ 28 →
        ((encodeVar v).length : Int) ≤ rem →
        readChunkVar (encodeVar v ++ rest) rem =
          .ok ((v : Int), rest, rem - (encodeVar v).length)) ∧
    (∀ v : Nat, v < 2 ^ 28 → (encodeVar v).length ≤ 4) ∧
    (∀ (b1 b2 b3 b4 : Nat) (rest : List Nat) (rem : Int),
        4 ≤ rem → 128 ≤ b1 → 128 ≤ b2 → 128 ≤ b3 → 128 ≤ b4 →
        readChunkVar (b1 :: b2 :: b3 :: b4 :: rest) rem = .error .long_varint) ∧
    (∀ (src : List Nat) (rem v : Int) (s : List Nat) (r : Int),
        readChunkVar src rem = .ok (v, s, r) → 0 ≤ v ∧ v < 2 ^ 28) := by
  refine ⟨readChunkVar_encode, encodeVar_length_le, ?_, ?_⟩
  · intro b1 b2 b3 b4 rest rem h4 hb1 hb2 hb3 hb4
    rw [readChunkVar,
      loop_step_cont _ _ _ _ _ hb1 (by omega) (by omega),
      loop_step_cont _ _ _ _ _ hb2 (by omega) (by omega),
      loop_step_cont _ _ _ _ _ hb3 (by omega) (by omega)]
    exact loop_step_overflow _ _ _ _ hb4 (by omega)
  · intro src rem v s r hok
    have := loop_result_bound 3 src rem 0 v s r (by omega) hok
    norm_num at this
    exact ⟨this.1, by have := this.2; norm_num; omega⟩

/-- Witness for C4: the encoding of 300 decodes back to 300 with the
remainder decremented by 2, and four continuation bytes in a row
produce the LONG_VARINT error. -/
theorem c4_witness :
    readChunkVar [130, 44, 9] 5 = .ok (300, [9], 3) ∧
    readChunkVar [255, 255, 255, 255, 0] 9 = .error .long_varint := by
  constructor
  · have h := c4_read_chunk_varint.1 300 [9] 5 (by norm_num) (by norm_num [encodeVar])
    simpa [encodeVar] using h
  · exact c4_read_chunk_varint.2.2.1 255 255 255 255 [0] 9 (by norm_num)
      (by norm_num) (by norm_num) (by norm_num) (by norm_num)

/-! ## Parser data model (the structures of smfparse.h) -/

/-- SMF_TIMESYS: the time system declared in the MIDI header. -/
structure Timesys where
  subdiv : Nat
  frame_rate : Nat
deriving DecidableEq, Repr

/-- SMF_HEADER: format, declared track count and time system. -/
structure Header where
  fmt : Nat
  nTracks : Nat
  ts : Timesys
deriving DecidableEq, Repr

/-- SMF_TIMECODE: an SMPTE timecode (fields are uint8_t). -/
structure Timecode where
  hour : Nat
  minute : Nat
  second : Nat
  frame : Nat
  ff : Nat
deriving DecidableEq, Repr

/-- SMF_TIMESIG: a decoded time signature. -/
structure Timesig where
  numerator : Nat
  denominator : Nat
  click : Nat
  beat_unit : Nat
deriving DecidableEq, Repr

/-- SMF_KEYSIG: a decoded key signature (the key is a signed count of
accidentals; is_minor is the raw byte after validation). -/
structure Keysig where
  key : Int
  is_minor : Nat
deriving DecidableEq, Repr

/-- The SMF_TYPE entity type constants. -/
inductive EType where
  | eofT          -- SMF_TYPE_EOF (0)
  | headerT       -- SMF_TYPE_HEADER (1)
  | chunkT        -- SMF_TYPE_CHUNK (2)
  | beginTrack    -- SMF_TYPE_BEGIN_TRACK (3)
  | endTrack      -- SMF_TYPE_END_TRACK (4)
  | noteOff       -- SMF_TYPE_NOTE_OFF (5)
  | noteOn        -- SMF_TYPE_NOTE_ON (6)
  | keyAftertouch -- SMF_TYPE_KEY_AFTERTOUCH (7)
  | control       -- SMF_TYPE_CONTROL (8)
  | program       -- SMF_TYPE_PROGRAM (9)
  | chAftertouch  -- SMF_TYPE_CH_AFTERTOUCH (10)
  | pitchBend     -- SMF_TYPE_PITCH_BEND (11)
  | sysex         -- SMF_TYPE_SYSEX (12)
  | sysesc        -- SMF_TYPE_SYSESC (13)
  | seqNumT       -- SMF_TYPE_SEQ_NUM (14)
  | textT         -- SMF_TYPE_TEXT (15)
  | chPfx         -- SMF_TYPE_CH_PREFIX (16)
  | tempo         -- SMF_TYPE_TEMPO (17)
  | smpte         -- SMF_TYPE_SMPTE (18)
  | timeSigT      -- SMF_TYPE_TIME_SIG (19)
  | keySigT       -- SMF_TYPE_KEY_SIG (20)
  | metaT         -- SMF_TYPE_META (21)
deriving DecidableEq, Repr

/-- The status discriminator of an entity: an SMF_TYPE constant, or a
negative SMF_ERR code. -/
inductive EntStatus where
  | etype (t : EType)
  | ecode (e : SmfErr)
deriving DecidableEq, Repr

/-- SMF_ENTITY: the record one read operation fills in.  The C fields
buf_ptr and buf_len reference the parser data buffer; the model stores
the referenced bytes directly in buf (empty exactly when buf_ptr would
be NULL).  The pointers pHead, tcode, tsig, ksig to parser-owned return
structures are modelled as optional values. -/
structure Entity where
  status : EntStatus
  pHead : Option Header
  chunk_type : Nat
  delta : Int
  ch : Int
  key : Int
  ctl : Int
  val : Int
  bend : Int
  buf_len : Int
  buf : List Nat
  seq_num : Int
  txtype : Int
  beat_dur : Int
  tcode : Option Timecode
  tsig : Option Timesig
  ksig : Option Keysig
  meta_type : Int
deriving DecidableEq, Repr

/-- The entity reset performed at the top of smfparse_read
(smfparse.c lines 2119-2138).  The reset status value 0 is the
SMF_TYPE_EOF constant. -/
def resetEntity : Entity :=
  { status := .etype .eofT
    pHead := none
    chunk_type := 0
    delta := -1
    ch := -1
    key := -1
    ctl := -1
    val := -1
    bend := 0
    buf_len := 0
    buf := []
    seq_num := -1
    txtype := -1
    beat_dur := -1
    tcode := none
    tsig := none
    ksig := none
    meta_type := -1 }

/-- The parser status field: 0 just constructed, 1 header read, 2 EOF,
negative error code when in the sticky error state. -/
inductive PStatus where
  | fresh       -- 0
  | headerSeen  -- 1
  | eofState    -- 2
  | perr (e : SmfErr)  -- the negative error code
deriving DecidableEq, Repr

/-- SMFPARSE: the parser state.  blen of the C structure is
data.length; bcap is the allocated capacity of the data buffer.  The
return structures rHead, rTC, rTS, rKS exist only to hand borrowed
pointers to the caller and are represented by the values carried inside
the returned entity. -/
structure Parser where
  status : PStatus
  ckrem : Int
  trkcount : Nat
  head : Header
  bcap : Nat
  data : List Nat
  run : Int
deriving DecidableEq, Repr

/-- pushBuffer (smfparse.c lines 301-355): appends one byte to the
parser data buffer, allocating the initial 256-byte capacity or
doubling it (up to BCAP_MAX = 32768) as needed; returns false when the
buffer already holds 32768 bytes.  Bytes outside 0..255 are a contract
violation; the (uint8_t) store of a checked byte is the identity. -/
def pushBuffer (ps : Parser) (c : Nat) : Except Fail (Bool × Parser) :=
  if c > 255 then .error .fault
  else
    let ps1 := if ps.bcap < 1 then { ps with bcap := 256, data := [] } else ps
    if ps1.data.length ≥ ps1.bcap then
      if ps1.bcap ≥ 32768 then .ok (false, ps1)
      else
        let nc := if ps1.bcap * 2 > 32768 then 32768 else ps1.bcap * 2
        .ok (true, { ps1 with bcap := nc, data := ps1.data ++ [c] })
    else .ok (true, { ps1 with data := ps1.data ++ [c] })

/-- readChunkHead (smfparse.c lines 610-651): 4-byte big-endian chunk
type, then 4-byte big-endian length, which must not exceed INT32_MAX
(otherwise SMF_ERR_HUGE_CHUNK). -/
def readChunkHead (src : List Nat) : Except Fail (Nat × Nat × List Nat) :=
  match readUint32BE src with
  | .error e => .error e
  | .ok (ty, s1) =>
    match readUint32BE s1 with
    | .error e => .error e
    | .ok (lv, s2) =>
      if lv > 0x7fffffff then .error (.ferr .huge_chunk)
      else .ok (ty, lv, s2)

/-- readHeaderChunk (smfparse.c lines 668-802): reads and validates the
MThd chunk and decodes the division field into the time system.  The
trailing smfsource_skip of ck_len - 6 bytes always succeeds on the
list-backed source. -/
def readHeaderChunk (src : List Nat) : Except Fail (Header × List Nat) :=
  match readChunkHead src with
  | .error e => .error e
  | .ok (ck_type, ck_len, s1) =>
    if ck_type ≠ 0x4d546864 then .error (.ferr .signature)
    else if ck_len < 6 then .error (.ferr .header_err)
    else
      match readUint16BE s1 with
      | .error e => .error e
      | .ok (fmt, s2) =>
        match readUint16BE s2 with
        | .error e => .error e
        | .ok (ntrks, s3) =>
          match readUint16BE s3 with
          | .error e => .error e
          | .ok (division, s4) =>
            let s5 := s4.drop (ck_len - 6)
            if fmt > 2 then .error (.ferr .midi_fmt)
            else if ntrks < 1 then .error (.ferr .no_tracks)
            else if fmt = 0 ∧ ntrks > 1 then .error (.ferr .multi_track)
            else if division &&& 0x8000 = 0 then
              if division > 0 then
                .ok ({ fmt := fmt, nTracks := ntrks
                       ts := { subdiv := division, frame_rate := 0 } }, s5)
              else .error (.ferr .header_err)
            else
              -- frame_rate = two's-complement of the high byte
              let fr := ((division >>> 8) ^^^ 0xff) + 1
              let sd := division &&& 0xff
              if (fr ≠ 24 ∧ fr ≠ 25 ∧ fr ≠ 29 ∧ fr ≠ 30) ∨ sd < 1 then
                .error (.ferr .header_err)
              else
                .ok ({ fmt := fmt, nTracks := ntrks
                       ts := { subdiv := sd, frame_rate := fr } }, s5)

/-- Claim C2 (code_bug evidence).  The MThd header whose division field
is 0xE8FF declares SMPTE timing with frame rate 24 (0xE8 is the
two's-complement encoding of -24) and 255 ticks per frame.  The parser
accepts it and yields subdiv = 255, although the SMF_TIMESYS
documentation in smfparse.h and the claim give [1, 127] as the SMPTE
subdiv range and the claim requires a header error for a division whose
SMPTE fields fall outside that range: readHeaderChunk only rejects
subdiv < 1. -/
theorem c2_smpte_subdiv_255_accepted :
    readHeaderChunk
        [0x4d, 0x54, 0x68, 0x64, 0, 0, 0, 6, 0, 0, 0, 1, 0xe8, 0xff] =
      .ok ({ fmt := 0, nTracks := 1
             ts := { subdiv := 255, frame_rate := 24 } }, []) := by
  decide

/-! ## Event parsing (parseEvent and its meta-event validators) -/

/-- The meta-event dispatch of parseEvent (smfparse.c lines 917-1203),
reached for ev = 0xFF with the event type in a.  Payload-length checks
written in C as comparisons of blen (the artifact writes buf_len, a
documented slip) followed by indexing into bptr are rendered as matches
on the buffered byte list. -/
def metaEvent (ps : Parser) (a delta : Int) : Except Fail (Entity × Parser) :=
  if a = 0x00 then
    -- Sequence Number: exactly two buffered bytes, big-endian value
    match ps.data with
    | [d0, d1] =>
      .ok ({ resetEntity with
               status := .etype .seqNumT
               delta := delta
               seq_num := (((d0 <<< 8) ||| d1 : Nat) : Int) }, ps)
    | _ => .error (.ferr .seq_num_err)
  else if 0x01 ≤ a ∧ a ≤ 0x07 then
    -- Text event: subclass in a, payload handed out through the buffer
    .ok ({ resetEntity with
             status := .etype .textT
             delta := delta
             buf_len := (ps.data.length : Int)
             buf := ps.data
             txtype := a }, ps)
  else if a = 0x20 then
    -- Channel prefix: exactly one buffered byte in range 0-15 (the
    -- byte is unsigned, so only the upper bound can fail)
    match ps.data with
    | [d0] =>
      if d0 > 15 then .error (.ferr .ch_pfx_err)
      else
        .ok ({ resetEntity with
                 status := .etype .chPfx
                 delta := delta
                 ch := (d0 : Int) }, ps)
    | _ => .error (.ferr .ch_pfx_err)
  else if a = 0x2f then
    -- End Of Track: no buffered bytes; remaining chunk bytes must have
    -- been skipped already (ckrem = 0, else a contract violation), and
    -- ckrem is set to -1 to leave the chunk
    if ps.data.length ≠ 0 then .error (.ferr .bad_eot)
    else if ps.ckrem ≠ 0 then .error .fault
    else
      .ok ({ resetEntity with
               status := .etype .endTrack
               delta := delta }, { ps with ckrem := -1 })
  else if a = 0x51 then
    -- Set Tempo: exactly three buffered bytes, not all zero
    match ps.data with
    | [d0, d1, d2] =>
      if d0 = 0 ∧ d1 = 0 ∧ d2 = 0 then .error (.ferr .set_tempo)
      else
        .ok ({ resetEntity with
                 status := .etype .tempo
                 delta := delta
                 beat_dur := (((d0 <<< 16) ||| (d1 <<< 8) ||| d2 : Nat) : Int) }, ps)
    | _ => .error (.ferr .set_tempo)
  else if a = 0x54 then
    -- SMPTE Offset: exactly five buffered bytes; range checks, then
    -- the frame-rate cap for SMPTE timing at 24 or 25 fps, then the
    -- drop-frame exclusion for the 29 (30000/1001) rate
    match ps.data with
    | [b0, b1, b2, b3, b4] =>
      if b0 > 23 ∨ b1 > 59 ∨ b2 > 59 ∨ b3 > 29 ∨ b4 > 99 then
        .error (.ferr .smpte_off)
      else if 0 < ps.head.ts.frame_rate ∧ ps.head.ts.frame_rate < 29 ∧
          b3 ≥ ps.head.ts.frame_rate then
        .error (.ferr .smpte_off)
      else if ps.head.ts.frame_rate = 29 ∧ b1 % 10 ≠ 0 ∧ b3 < 2 then
        .error (.ferr .smpte_off)
      else
        .ok ({ resetEntity with
                 status := .etype .smpte
                 delta := delta
                 tcode := some { hour := b0, minute := b1, second := b2
                                 frame := b3, ff := b4 } }, ps)
    | _ => .error (.ferr .smpte_off)
  else if a = 0x58 then
    -- Time Signature: exactly four buffered bytes; numerator, click
    -- and beat unit at least one; denominator exponent at most 15 and
    -- the decoded power of two at most SMF_MAX_TIME_DENOM = 1024
    match ps.data with
    | [b0, b1, b2, b3] =>
      if b0 < 1 ∨ b2 < 1 ∨ b3 < 1 then .error (.ferr .time_sig_err)
      else if b1 > 15 then .error (.ferr .time_sig_err)
      else if (1 <<< b1 : Nat) > 1024 then .error (.ferr .time_sig_err)
      else
        .ok ({ resetEntity with
                 status := .etype .timeSigT
                 delta := delta
                 tsig := some { numerator := b0, denominator := 1 <<< b1
                                click := b2, beat_unit := b3 } }, ps)
    | _ => .error (.ferr .time_sig_err)
  else if a = 0x59 then
    -- Key Signature: exactly two buffered bytes; key interpreted as a
    -- signed 8-bit value in [-7, 7]; is_minor 0 or 1
    match ps.data with
    | [b0, b1] =>
      let k : Int := if b0 > 0x7f then (b0 : Int) - 0x100 else (b0 : Int)
      if k < -7 ∨ k > 7 then .error (.ferr .key_sig_err)
      else if b1 ≠ 1 ∧ b1 ≠ 0 then .error (.ferr .key_sig_err)
      else
        .ok ({ resetEntity with
                 status := .etype .keySigT
                 delta := delta
                 ksig := some { key := k, is_minor := b1 } }, ps)
    | _ => .error (.ferr .key_sig_err)
  else
    -- Any other meta type: opaque META entity with the payload
    .ok ({ resetEntity with
             status := .etype .metaT
             delta := delta
             buf_len := (ps.data.length : Int)
             buf := ps.data
             meta_type := a }, ps)

/-- parseEvent (smfparse.c lines 851-1287): classifies the lead byte ev
and fills in an entity.  Parameter-shape violations are contract
violations (fault).  The returned parser differs from the input one
only for the End Of Track meta-event, which sets ckrem to -1. -/
def parseEvent (ps : Parser) (ev a b delta : Int) : Except Fail (Entity × Parser) :=
  if ev < 0 ∨ ev > 255 then .error .fault
  else if a < -1 ∨ a > 255 then .error .fault
  else if b < -1 ∨ b > 255 then .error .fault
  else if 0 ≤ b ∧ a < 0 then .error .fault
  else if delta < 0 ∨ delta > 0xfffffff then .error .fault
  else if ev = 0xf0 ∨ ev = 0xf7 then
    if a ≠ -1 ∨ b ≠ -1 then .error .fault
    else
      .ok ({ resetEntity with
               status := .etype (if ev = 0xf0 then .sysex else .sysesc)
               delta := delta
               buf_len := (ps.data.length : Int)
               buf := ps.data }, ps)
  else if ev = 0xff then
    if a = -1 ∨ b ≠ -1 then .error .fault
    else metaEvent ps a delta
  else if 0x80 ≤ ev ∧ ev ≤ 0xef then
    -- msg = ev & 0xf0 and ch = ev & 0x0f, written with division and
    -- remainder by 16, which agree with the masks for ev in [0, 255]
    let msg : Int := ev - ev % 16
    let ch : Int := ev % 16
    if (if msg = 0xc0 ∨ msg = 0xd0 then a = -1 ∨ b ≠ -1 else a = -1 ∨ b = -1) then
      .error .fault
    else if 0 ≤ a ∧ a > 0x7f then .error (.ferr .midi_data)
    else if 0 ≤ b ∧ b > 0x7f then .error (.ferr .midi_data)
    else
      let base := { resetEntity with delta := delta, ch := ch }
      if msg = 0x80 then
        .ok ({ base with status := .etype .noteOff, key := a, val := b }, ps)
      else if msg = 0x90 then
        .ok ({ base with status := .etype .noteOn, key := a, val := b }, ps)
      else if msg = 0xa0 then
        .ok ({ base with status := .etype .keyAftertouch, key := a, val := b }, ps)
      else if msg = 0xb0 then
        .ok ({ base with status := .etype .control, ctl := a, val := b }, ps)
      else if msg = 0xc0 then
        .ok ({ base with status := .etype .program, val := a }, ps)
      else if msg = 0xd0 then
        .ok ({ base with status := .etype .chAftertouch, val := a }, ps)
      else if msg = 0xe0 then
        -- bend = ((b << 7) | a) - 8192; the shift-or equals b * 128 + a
        -- because a is in [0, 127] after the checks above
        .ok ({ base with status := .etype .pitchBend, bend := b * 128 + a - 8192 }, ps)
      else .error .fault
  else .error (.ferr .bad_event)

/-! ## Reading one event from a track (readEvent) -/

/-- The payload loop of readEvent (smfparse.c lines 1410-1423 and
1441-1454): reads count bytes from the chunk, pushing each into the
parser data buffer; a full buffer is the SMF_ERR_BIG_PAYLOAD error.
The C loop counter runs up to the varint value vl, which is
non-negative on every successful varint read; count is that value. -/
def readPayload : Parser → List Nat → Int → Nat → Except Fail (Parser × List Nat × Int)
  | ps, src, rem, 0 => .ok (ps, src, rem)
  | ps, src, rem, n + 1 =>
    match readChunkByte src rem with
    | .error e => .error (.ferr e)
    | .ok (d, s, r) =>
      match pushBuffer ps d with
      | .error f => .error f
      | .ok (true, ps1) => readPayload ps1 s r n
      | .ok (false, _) => .error (.ferr .big_payload)

/-- The tail of readEvent (smfparse.c lines 1463-1494) once the whole
message has been read: running status is cached for channel messages
and cleared otherwise; for an End Of Track meta-event (a = 0x2F; the C
code tests only a, so a channel message whose first parameter is 0x2F
also triggers this) the remaining chunk bytes are skipped and ckrem is
zeroed; finally parseEvent fills in the entity.  rem is the current
chunk remainder, installed into the parser for parseEvent. -/
def finishEvent (ps : Parser) (rem : Int) (c a b delta : Int) (src : List Nat) :
    Except Fail (Entity × Parser × List Nat) :=
  let ps1 := if 0x80 ≤ c ∧ c ≤ 0xef then { ps with run := c } else { ps with run := -1 }
  if a = 0x2f then
    let src2 := src.drop rem.toNat
    match parseEvent { ps1 with ckrem := 0 } c a b delta with
    | .error f => .error f
    | .ok (ent, ps2) => .ok (ent, ps2, src2)
  else
    match parseEvent { ps1 with ckrem := rem } c a b delta with
    | .error f => .error f
    | .ok (ent, ps2) => .ok (ent, ps2, src)

/-- First-parameter read shared by the channel-message branches of
readEvent: when running status already supplied the first parameter
(a0 at least 0) it is used as is, otherwise one byte is read from the
chunk. -/
def readParamIf (a0 : Int) (src : List Nat) (rem : Int) :
    Except SmfErr (Int × List Nat × Int) :=
  if a0 < 0 then
    match readChunkByte src rem with
    | .error e => .error e
    | .ok (x, s, r) => .ok ((x : Int), s, r)
  else .ok (a0, src, rem)

/-- The status-byte dispatch of readEvent (smfparse.c lines 1375-1461):
channel messages with two or one data bytes, SysEx events (varint
length then payload), meta-events (type byte, varint length, payload),
and SMF_ERR_BAD_EVENT otherwise. -/
def readEventBody (ps : Parser) (rem : Int) (src : List Nat) (c a0 delta : Int) :
    Except Fail (Entity × Parser × List Nat) :=
  if (0x80 ≤ c ∧ c ≤ 0xbf) ∨ (0xe0 ≤ c ∧ c ≤ 0xef) then
    match readParamIf a0 src rem with
    | .error e => .error (.ferr e)
    | .ok (a, s1, r1) =>
      match readChunkByte s1 r1 with
      | .error e => .error (.ferr e)
      | .ok (b, s2, r2) => finishEvent ps r2 c a (b : Int) delta s2
  else if 0xc0 ≤ c ∧ c ≤ 0xdf then
    match readParamIf a0 src rem with
    | .error e => .error (.ferr e)
    | .ok (a, s1, r1) => finishEvent ps r1 c a (-1) delta s1
  else if c = 0xf0 ∨ c = 0xf7 then
    match readChunkVar src rem with
    | .error e => .error (.ferr e)
    | .ok (vl, s1, r1) =>
      match readPayload ps s1 r1 vl.toNat with
      | .error f => .error f
      | .ok (ps1, s2, r2) => finishEvent ps1 r2 c a0 (-1) delta s2
  else if c = 0xff then
    match readChunkByte src rem with
    | .error e => .error (.ferr e)
    | .ok (m, s1, r1) =>
      match readChunkVar s1 r1 with
      | .error e => .error (.ferr e)
      | .ok (vl, s2, r2) =>
        match readPayload ps s2 r2 vl.toNat with
        | .error f => .error f
        | .ok (ps1, s3, r3) => finishEvent ps1 r3 c (m : Int) (-1) delta s3
  else .error (.ferr .bad_event)

/-- readEvent (smfparse.c lines 1314-1495): requires the header-seen
status and an open chunk (contract violation otherwise), resets the
data buffer, reads the delta varint and the first message byte, and
resolves running status: a first byte below 0x80 is the first data
parameter and the cached running status byte becomes the lead byte
(SMF_ERR_RUN_STATUS if none is cached). -/
def readEvent (ps0 : Parser) (src0 : List Nat) :
    Except Fail (Entity × Parser × List Nat) :=
  if ps0.status ≠ .headerSeen ∨ ps0.ckrem < 0 then .error .fault
  else
    let ps := { ps0 with data := [] }
    match readChunkVar src0 ps.ckrem with
    | .error e => .error (.ferr e)
    | .ok (delta, s1, r1) =>
      match readChunkByte s1 r1 with
      | .error e => .error (.ferr e)
      | .ok (c0, s2, r2) =>
        if c0 < 0x80 then
          if ps.run < 0 then .error (.ferr .run_status)
          else readEventBody ps r2 s2 ps.run (c0 : Int) delta
        else readEventBody ps r2 s2 (c0 : Int) (-1) delta

/-! ## The top-level read (smfparse_read) -/

/-- smfparse_read (smfparse.c lines 2105-2241) as a step function from
a parser state and the remaining input to the next parser state, the
filled entity, and the remaining input.  The none result is the
unreachable contract-violation branch (an error path delivering a
non-negative code).  On a parse failure the error code is stored both
in the entity status and, sticky, in the parser status. -/
def smfparse_read (ps : Parser) (src : List Nat) :
    Option (Parser × Entity × List Nat) :=
  match ps.status with
  | .perr e =>
    -- sticky error: report it again without touching the source
    some (ps, { resetEntity with status := .ecode e }, src)
  | .fresh =>
    -- initial state: read the header chunk
    match readHeaderChunk src with
    | .error (.ferr e) =>
      some ({ ps with status := .perr e }, { resetEntity with status := .ecode e }, src)
    | .error .fault => none
    | .ok (h, s1) =>
      some ({ ps with status := .headerSeen, head := h },
            { resetEntity with status := .etype .headerT, pHead := some h }, s1)
  | .eofState =>
    some (ps, { resetEntity with status := .etype .eofT }, src)
  | .headerSeen =>
    if ps.ckrem < 0 then
      if ps.trkcount < ps.head.nTracks then
        match readChunkHead src with
        | .error (.ferr e) =>
          some ({ ps with status := .perr e },
                { resetEntity with status := .ecode e }, src)
        | .error .fault => none
        | .ok (ty, len, s1) =>
          if ty = 0x4d54726b then
            -- MTrk chunk: open the track, reset running status
            some ({ ps with trkcount := ps.trkcount + 1, ckrem := (len : Int), run := -1 },
                  { resetEntity with status := .etype .beginTrack }, s1)
          else if ty = 0x4d546864 then
            some ({ ps with status := .perr .multi_head },
                  { resetEntity with status := .ecode .multi_head }, src)
          else
            -- foreign chunk: skip the payload (always succeeds on the
            -- list-backed source) and surface it
            some (ps, { resetEntity with status := .etype .chunkT, chunk_type := ty },
                  s1.drop len)
      else
        some ({ ps with status := .eofState },
              { resetEntity with status := .etype .eofT }, src)
    else
      match readEvent ps src with
      | .error (.ferr e) =>
        some ({ ps with status := .perr e },
              { resetEntity with status := .ecode e }, src)
      | .error .fault => none
      | .ok (ent, ps1, s1) => some (ps1, ent, s1)

/-! ## Sticky errors and EOF absorption (claims C3, C9) -/

/-- Claim C3.  Once a negative error code is recorded in the parser
status, every smfparse_read call returns the parser completely
unchanged, fills the entity status with exactly that code, and returns
the input untouched (no source operation is performed). -/
theorem c3_sticky_error (ps : Parser) (src : List Nat) (e : SmfErr)
    (h : ps.status = .perr e) :
    smfparse_read ps src = some (ps, { resetEntity with status := .ecode e }, src) := by
  unfold smfparse_read
  rw [h]

/-- A freshly constructed parser (smfparse_alloc, smfparse.c lines
2068-2085). -/
def pInit : Parser :=
  { status := .fresh, ckrem := -1, trkcount := 0,
    head := { fmt := 0, nTracks := 0, ts := { subdiv := 0, frame_rate := 0 } },
    bcap := 0, data := [], run := -1 }

/-- Witness for C3 at a concrete errored parser. -/
theorem c3_witness :
    smfparse_read { pInit with status := .perr .bad_event } [1, 2, 3] =
      some ({ pInit with status := .perr .bad_event },
            { resetEntity with status := .ecode .bad_event }, [1, 2, 3]) :=
  c3_sticky_error { pInit with status := .perr .bad_event } [1, 2, 3] .bad_event rfl

/-- Claim C9.  With the header read, no chunk open and the declared
track count reached, smfparse_read emits SMF_TYPE_EOF without touching
the input and moves to the EOF state; and in the EOF state every read
emits SMF_TYPE_EOF and leaves both parser and input unchanged, so the
EOF state is absorbing. -/
theorem c9_eof_absorbing :
    (∀ (ps : Parser) (src : List Nat),
        ps.status = .headerSeen → ps.ckrem < 0 → ps.trkcount = ps.head.nTracks →
        smfparse_read ps src =
          some ({ ps with status := .eofState },
                { resetEntity with status := .etype .eofT }, src)) ∧
    (∀ (ps : Parser) (src : List Nat),
        ps.status = .eofState →
        smfparse_read ps src =
          some (ps, { resetEntity with status := .etype .eofT }, src)) := by
  constructor
  · intro ps src hst hck htr
    unfold smfparse_read
    rw [hst]
    rw [if_pos hck, if_neg (by omega)]
  · intro ps src hst
    unfold smfparse_read
    rw [hst]

/-- A parser that has read the header and consumed both declared
tracks. -/
def pAllTracks : Parser :=
  { status := .headerSeen, ckrem := -1, trkcount := 2,
    head := { fmt := 1, nTracks := 2, ts := { subdiv := 96, frame_rate := 0 } },
    bcap := 0, data := [], run := -1 }

/-- Witness for C9 at a concrete parser. -/
theorem c9_witness :
    smfparse_read pAllTracks [7] =
      some ({ pAllTracks with status := .eofState },
            { resetEntity with status := .etype .eofT }, [7]) ∧
    smfparse_read { pAllTracks with status := .eofState } [9] =
      some ({ pAllTracks with status := .eofState },
            { resetEntity with status := .etype .eofT }, [9]) :=
  ⟨c9_eof_absorbing.1 pAllTracks [7] rfl (by decide) rfl,
   c9_eof_absorbing.2 { pAllTracks with status := .eofState } [9] rfl⟩

/-! ## Ranges of emitted channel messages (claim C8) -/

/-- Claim C8.  Every channel-message entity parseEvent emits has ch in
[0, 15] and its applicable key, val, ctl fields in [0, 127] (absent
fields hold the -1 sentinel), and a PITCH_BEND entity carries
bend = ((B << 7) | A) - 8192 in [-8192, 8191]; and a data byte with its
high bit set makes the parse fail with SMF_ERR_MIDI_DATA instead. -/
theorem c8_channel_ranges :
    (∀ (ps : Parser) (ev a b delta : Int) (ent : Entity) (ps2 : Parser),
        0x80 ≤ ev → ev ≤ 0xef →
        parseEvent ps ev a b delta = .ok (ent, ps2) →
        (0 ≤ ent.ch ∧ ent.ch ≤ 15) ∧
        (ent.key = -1 ∨ (0 ≤ ent.key ∧ ent.key ≤ 127)) ∧
        (ent.val = -1 ∨ (0 ≤ ent.val ∧ ent.val ≤ 127)) ∧
        (ent.ctl = -1 ∨ (0 ≤ ent.ctl ∧ ent.ctl ≤ 127)) ∧
        (ent.status = .etype .pitchBend →
          ent.bend = b * 128 + a - 8192 ∧ -8192 ≤ ent.bend ∧ ent.bend ≤ 8191)) ∧
    (∀ (ps : Parser) (ev a b delta : Int),
        0x80 ≤ ev → ev ≤ 0xef → 0 ≤ delta → delta ≤ 0xfffffff →
        0 ≤ a → a ≤ 255 → -1 ≤ b → b ≤ 255 →
        ((ev - ev % 16 = 0xc0 ∨ ev - ev % 16 = 0xd0) → b = -1) →
        (¬(ev - ev % 16 = 0xc0 ∨ ev - ev % 16 = 0xd0) → 0 ≤ b) →
        (0x7f < a ∨ 0x7f < b) →
        parseEvent ps ev a b delta = .error (.ferr .midi_data)) := by
  constructor
  · intro ps ev a b delta ent ps2 h80 hef hok
    simp only [parseEvent] at hok
    rw [if_neg (show ¬(ev < 0 ∨ ev > 255) by omega),
      if_neg (show ¬(ev = 240 ∨ ev = 247) by omega),
      if_neg (show ¬(ev = 255) by omega),
      if_pos (show 128 ≤ ev ∧ ev ≤ 239 from ⟨h80, hef⟩)] at hok
    by_cases hA : a < -1 ∨ a > 255
    · rw [if_pos hA] at hok; exact Except.noConfusion hok
    rw [if_neg hA] at hok
    by_cases hB : b < -1 ∨ b > 255
    · rw [if_pos hB] at hok; exact Except.noConfusion hok
    rw [if_neg hB] at hok
    by_cases hBA : 0 ≤ b ∧ a < 0
    · rw [if_pos hBA] at hok; exact Except.noConfusion hok
    rw [if_neg hBA] at hok
    by_cases hD : delta < 0 ∨ delta > 268435455
    · rw [if_pos hD] at hok; exact Except.noConfusion hok
    rw [if_neg hD] at hok
    by_cases hSh : (if ev - ev % 16 = 192 ∨ ev - ev % 16 = 208
        then a = -1 ∨ b ≠ -1 else a = -1 ∨ b = -1)
    · rw [if_pos hSh] at hok; exact Except.noConfusion hok
    rw [if_neg hSh] at hok
    by_cases hHa : 0 ≤ a ∧ a > 127
    · rw [if_pos hHa] at hok; exact Except.noConfusion hok
    rw [if_neg hHa] at hok
    by_cases hHb : 0 ≤ b ∧ b > 127
    · rw [if_pos hHb] at hok; exact Except.noConfusion hok
    rw [if_neg hHb] at hok
    by_cases h1 : ev - ev % 16 = 128
    · rw [if_pos h1] at hok
      rw [if_neg (show ¬(ev - ev % 16 = 192 ∨ ev - ev % 16 = 208) by omega)] at hSh
      push_neg at hSh
      injection hok with h
      injection h with he hp
      subst he
      dsimp only [resetEntity]
      refine ⟨by omega, by omega, by omega, by omega, fun hx => absurd hx (by decide)⟩
    rw [if_neg h1] at hok
    by_cases h2 : ev - ev % 16 = 144
    · rw [if_pos h2] at hok
      rw [if_neg (show ¬(ev - ev % 16 = 192 ∨ ev - ev % 16 = 208) by omega)] at hSh
      push_neg at hSh
      injection hok with h
      injection h with he hp
      subst he
      dsimp only [resetEntity]
      refine ⟨by omega, by omega, by omega, by omega, fun hx => absurd hx (by decide)⟩
    rw [if_neg h2] at hok
    by_cases h3 : ev - ev % 16 = 160
    · rw [if_pos h3] at hok
      rw [if_neg (show ¬(ev - ev % 16 = 192 ∨ ev - ev % 16 = 208) by omega)] at hSh
      push_neg at hSh
      injection hok with h
      injection h with he hp
      subst he
      dsimp only [resetEntity]
      refine ⟨by omega, by omega, by omega, by omega, fun hx => absurd hx (by decide)⟩
    rw [if_neg h3] at hok
    by_cases h4 : ev - ev % 16 = 176
    · rw [if_pos h4] at hok
      rw [if_neg (show ¬(ev - ev % 16 = 192 ∨ ev - ev % 16 = 208) by omega)] at hSh
      push_neg at hSh
      injection hok with h
      injection h with he hp
      subst he
      dsimp only [resetEntity]
      refine ⟨by omega, by omega, by omega, by omega, fun hx => absurd hx (by decide)⟩
    rw [if_neg h4] at hok
    by_cases h5 : ev - ev % 16 = 192
    · rw [if_pos h5] at hok
      rw [if_pos (show ev - ev % 16 = 192 ∨ ev - ev % 16 = 208 from Or.inl h5)] at hSh
      push_neg at hSh
      injection hok with h
      injection h with he hp
      subst he
      dsimp only [resetEntity]
      refine ⟨by omega, by omega, by omega, by omega, fun hx => absurd hx (by decide)⟩
    rw [if_neg h5] at hok
    by_cases h6 : ev - ev % 16 = 208
    · rw [if_pos h6] at hok
      rw [if_pos (show ev - ev % 16 = 192 ∨ ev - ev % 16 = 208 from Or.inr h6)] at hSh
      push_neg at hSh
      injection hok with h
      injection h with he hp
      subst he
      dsimp only [resetEntity]
      refine ⟨by omega, by omega, by omega, by omega, fun hx => absurd hx (by decide)⟩
    rw [if_neg h6] at hok
    by_cases h7 : ev - ev % 16 = 224
    · rw [if_pos h7] at hok
      rw [if_neg (show ¬(ev - ev % 16 = 192 ∨ ev - ev % 16 = 208) by omega)] at hSh
      push_neg at hSh
      injection hok with h
      injection h with he hp
      subst he
      dsimp only [resetEntity]
      exact ⟨by omega, by omega, by omega, by omega, fun hx => ⟨rfl, by omega, by omega⟩⟩
    rw [if_neg h7] at hok
    exact absurd h80 (by omega)
  · intro ps ev a b delta h80 hef hd0 hd1 ha0 ha1 hb0 hb1 hsh1 hsh2 hhigh
    simp only [parseEvent]
    rw [if_neg (show ¬(ev < 0 ∨ ev > 255) by omega),
      if_neg (show ¬(ev = 240 ∨ ev = 247) by omega),
      if_neg (show ¬(ev = 255) by omega),
      if_pos (show 128 ≤ ev ∧ ev ≤ 239 from ⟨h80, hef⟩),
      if_neg (show ¬(a < -1 ∨ a > 255) by omega),
      if_neg (show ¬(b < -1 ∨ b > 255) by omega),
      if_neg (show ¬(0 ≤ b ∧ a < 0) by omega),
      if_neg (show ¬(delta < 0 ∨ delta > 268435455) by omega)]
    by_cases hm : ev - ev % 16 = 192 ∨ ev - ev % 16 = 208
    · have hb := hsh1 hm
      rw [if_neg (show ¬(if ev - ev % 16 = 192 ∨ ev - ev % 16 = 208
          then a = -1 ∨ b ≠ -1 else a = -1 ∨ b = -1) from by
          rw [if_pos hm]; omega)]
      rw [if_pos (show 0 ≤ a ∧ a > 127 by omega)]
    · have hb := hsh2 hm
      rw [if_neg (show ¬(if ev - ev % 16 = 192 ∨ ev - ev % 16 = 208
          then a = -1 ∨ b ≠ -1 else a = -1 ∨ b = -1) from by
          rw [if_neg hm]; omega)]
      by_cases hHa : 0 ≤ a ∧ a > 127
      · rw [if_pos hHa]
      · rw [if_neg hHa, if_pos (show 0 ≤ b ∧ b > 127 by omega)]


/-- The NOTE_ON entity produced for status byte 0x90, key 60 and
velocity 100 at delta 0. -/
def noteOnEnt : Entity :=
  { resetEntity with status := .etype .noteOn, delta := 0, ch := 0, key := 60, val := 100 }

/-- Witness for C8: a concrete NOTE_ON satisfies the ranges, and a
first data byte of 200 is rejected with MIDI_DATA. -/
theorem c8_witness :
    (((0 : Int) ≤ noteOnEnt.ch ∧ noteOnEnt.ch ≤ 15) ∧
     (noteOnEnt.key = -1 ∨ ((0 : Int) ≤ noteOnEnt.key ∧ noteOnEnt.key ≤ 127)) ∧
     (noteOnEnt.val = -1 ∨ ((0 : Int) ≤ noteOnEnt.val ∧ noteOnEnt.val ≤ 127)) ∧
     (noteOnEnt.ctl = -1 ∨ ((0 : Int) ≤ noteOnEnt.ctl ∧ noteOnEnt.ctl ≤ 127)) ∧
     (noteOnEnt.status = .etype .pitchBend →
        noteOnEnt.bend = 100 * 128 + 60 - 8192 ∧
        (-8192 : Int) ≤ noteOnEnt.bend ∧ noteOnEnt.bend ≤ 8191)) ∧
    parseEvent pInit 0x90 200 100 0 = .error (.ferr .midi_data) :=
  ⟨c8_channel_ranges.1 pInit 0x90 60 100 0 noteOnEnt pInit (by decide) (by decide) (by decide),
   c8_channel_ranges.2 pInit 0x90 200 100 0 (by decide) (by decide) (by decide) (by decide)
     (by decide) (by decide) (by decide) (by decide) (by decide) (by decide) (by decide)⟩



/-! ## The SMPTE Offset meta-event validator (claim C6) -/

/-- The acceptance condition of claim C6, written from the claim text:
payload of five bytes with hour, minute, second, frame, fractional
frame in range; frame below the frame rate under SMPTE timing at 24 or
25 fps; and the drop-frame exclusion of frames 0 and 1 under rate 29
when the minute is not divisible by ten. -/
def smpteClaimCond (ps : Parser) : Prop :=
  ∃ h m s fr f2 : Nat, ps.data = [h, m, s, fr, f2] ∧
    h ≤ 23 ∧ m ≤ 59 ∧ s ≤ 59 ∧ fr ≤ 29 ∧ f2 ≤ 99 ∧
    ((ps.head.ts.frame_rate = 24 ∨ ps.head.ts.frame_rate = 25) →
      fr < ps.head.ts.frame_rate) ∧
    (ps.head.ts.frame_rate = 29 → m % 10 ≠ 0 → ¬(fr = 0 ∨ fr = 1))

lemma parseEvent_smpte_red (ps : Parser) (delta : Int)
    (hd0 : 0 ≤ delta) (hd1 : delta ≤ 0xfffffff) :
    parseEvent ps 0xff 0x54 (-1) delta = metaEvent ps 0x54 delta := by
  simp only [parseEvent]
  norm_num
  intro h
  exact absurd h (by omega)

lemma smpteClaimCond_iff (ps : Parser) (b0 b1 b2 b3 b4 : Nat)
    (hd : ps.data = [b0, b1, b2, b3, b4]) :
    smpteClaimCond ps ↔
      (b0 ≤ 23 ∧ b1 ≤ 59 ∧ b2 ≤ 59 ∧ b3 ≤ 29 ∧ b4 ≤ 99 ∧
       ((ps.head.ts.frame_rate = 24 ∨ ps.head.ts.frame_rate = 25) →
         b3 < ps.head.ts.frame_rate) ∧
       (ps.head.ts.frame_rate = 29 → b1 % 10 ≠ 0 → ¬(b3 = 0 ∨ b3 = 1))) := by
  simp only [smpteClaimCond, hd, List.cons.injEq, and_true, List.nil_eq]
  constructor
  · rintro ⟨h, m, s, fr, f2, ⟨rfl, rfl, rfl, rfl, rfl⟩, rest⟩
    exact rest
  · intro hx
    exact ⟨b0, b1, b2, b3, b4, ⟨rfl, rfl, rfl, rfl, rfl⟩, hx⟩

lemma smpteClaimCond_len (ps : Parser) (h : ps.data.length ≠ 5) : ¬ smpteClaimCond ps := by
  rintro ⟨a, b, c, d, e, hd, -⟩
  rw [hd] at h
  simp at h

/-- Claim C6.  Under a header whose frame rate is one of the values
readHeaderChunk can produce, a SMPTE Offset meta-event (0xFF 0x54) is
accepted exactly when the claim condition holds, and rejected with
SMF_ERR_SMPTE_OFF otherwise. -/
theorem c6_smpte_offset (ps : Parser) (delta : Int)
    (hd0 : 0 ≤ delta) (hd1 : delta ≤ 0xfffffff)
    (hfr : ps.head.ts.frame_rate = 0 ∨ ps.head.ts.frame_rate = 24 ∨
      ps.head.ts.frame_rate = 25 ∨ ps.head.ts.frame_rate = 29 ∨
      ps.head.ts.frame_rate = 30) :
    ((∃ out, parseEvent ps 0xff 0x54 (-1) delta = .ok out) ↔ smpteClaimCond ps) ∧
    (¬ smpteClaimCond ps →
      parseEvent ps 0xff 0x54 (-1) delta = .error (.ferr .smpte_off)) := by
  rw [parseEvent_smpte_red ps delta hd0 hd1]
  rcases hd : ps.data with _ | ⟨b0, _ | ⟨b1, _ | ⟨b2, _ | ⟨b3, _ | ⟨b4, _ | ⟨b5, tl⟩⟩⟩⟩⟩⟩
  pick_goal 6
  · -- exactly five buffered bytes
    rw [smpteClaimCond_iff ps b0 b1 b2 b3 b4 hd]
    have hme0 : metaEvent ps 0x54 delta =
        (if b0 > 23 ∨ b1 > 59 ∨ b2 > 59 ∨ b3 > 29 ∨ b4 > 99 then
          Except.error (Fail.ferr .smpte_off)
        else if 0 < ps.head.ts.frame_rate ∧ ps.head.ts.frame_rate < 29 ∧
            b3 ≥ ps.head.ts.frame_rate then
          Except.error (Fail.ferr .smpte_off)
        else if ps.head.ts.frame_rate = 29 ∧ b1 % 10 ≠ 0 ∧ b3 < 2 then
          Except.error (Fail.ferr .smpte_off)
        else
          Except.ok ({ resetEntity with
            status := .etype .smpte
            delta := delta
            tcode := some { hour := b0, minute := b1, second := b2
                            frame := b3, ff := b4 } }, ps)) := by
      simp only [metaEvent, hd]
      norm_num
    rw [hme0]
    by_cases hA : b0 > 23 ∨ b1 > 59 ∨ b2 > 59 ∨ b3 > 29 ∨ b4 > 99
    · rw [if_pos hA]
      exact ⟨⟨fun ⟨out, h⟩ => Except.noConfusion h, fun hc => absurd hc (by omega)⟩,
        fun _ => rfl⟩
    rw [if_neg hA]
    by_cases hB : 0 < ps.head.ts.frame_rate ∧ ps.head.ts.frame_rate < 29 ∧
        b3 ≥ ps.head.ts.frame_rate
    · rw [if_pos hB]
      exact ⟨⟨fun ⟨out, h⟩ => Except.noConfusion h, fun hc => absurd hc (by omega)⟩,
        fun _ => rfl⟩
    rw [if_neg hB]
    by_cases hC : ps.head.ts.frame_rate = 29 ∧ b1 % 10 ≠ 0 ∧ b3 < 2
    · rw [if_pos hC]
      exact ⟨⟨fun ⟨out, h⟩ => Except.noConfusion h, fun hc => absurd hc (by omega)⟩,
        fun _ => rfl⟩
    rw [if_neg hC]
    exact ⟨⟨fun _ => by omega, fun _ => ⟨_, rfl⟩⟩, fun hn => absurd (by omega) hn⟩
  all_goals
    have hnc := smpteClaimCond_len ps (by rw [hd]; simp)
    have hme : metaEvent ps 0x54 delta = .error (.ferr .smpte_off) := by
      simp only [metaEvent, hd]
      norm_num
    rw [hme]
    exact ⟨⟨fun ⟨out, h⟩ => Except.noConfusion h, fun hc => absurd hc hnc⟩, fun _ => rfl⟩


/-- Witness for C6: timecode 01:02:03, frame 4, ff 5 under metrical
timing is accepted. -/
theorem c6_witness :
    ∃ out, parseEvent { pInit with data := [1, 2, 3, 4, 5] } 0xff 0x54 (-1) 0 = .ok out :=
  ((c6_smpte_offset { pInit with data := [1, 2, 3, 4, 5] } 0 (by decide) (by decide)
      (Or.inl (by decide))).1).mpr
    ⟨1, 2, 3, 4, 5, rfl, by decide, by decide, by decide, by decide, by decide,
      fun hc => absurd hc (by decide), fun h29 => absurd h29 (by decide)⟩



/-! ## Running-status resolution (claim C5) -/

/-- The outcome of finishEvent does not depend on the ckrem field of
the parser it receives: that field is overwritten before parseEvent
runs. -/
lemma finishEvent_ckrem_irrel (ps : Parser) (k rem : Int) (c a b delta : Int)
    (src : List Nat) :
    finishEvent { ps with ckrem := k } rem c a b delta src =
      finishEvent ps rem c a b delta src := by
  simp only [finishEvent]
  by_cases hcr : 0x80 ≤ c ∧ c ≤ 0xef
  · simp only [if_pos hcr]
  · simp only [if_neg hcr]

/-- For a channel-message status byte, reading the first data
parameter from the input is the same as receiving it from the
running-status resolution, with the chunk remainder one byte further
along in the first case. -/
lemma readEventBody_run_resolved (psA psB : Parser) (k rem : Int) (src : List Nat)
    (c delta : Int) (x : Nat)
    (hps : psA = { psB with ckrem := k })
    (hrem : 0 ≤ rem) (hc : 0x80 ≤ c ∧ c ≤ 0xef) :
    readEventBody psA (rem + 1) (x :: src) c (-1) delta =
      readEventBody psB rem src c (x : Int) delta := by
  subst hps
  have hb : readChunkByte (x :: src) (rem + 1) = .ok (x, src, rem) := by
    rw [readChunkByte_cons _ _ _ (by omega)]
    norm_num
  by_cases h2 : (0x80 ≤ c ∧ c ≤ 0xbf) ∨ (0xe0 ≤ c ∧ c ≤ 0xef)
  · simp only [readEventBody, if_pos h2, readParamIf,
      if_pos (show (-1 : Int) < 0 by norm_num),
      if_neg (show ¬((x : Int) < 0) by omega), hb]
    rcases hcb : readChunkByte src rem with e | ⟨b, s2, r2⟩ <;> simp only [hcb]
    · exact finishEvent_ckrem_irrel psB k r2 c x b delta s2
  · by_cases h3 : 0xc0 ≤ c ∧ c ≤ 0xdf
    · simp only [readEventBody, if_neg h2, if_pos h3, readParamIf,
        if_pos (show (-1 : Int) < 0 by norm_num),
        if_neg (show ¬((x : Int) < 0) by omega), hb]
      exact finishEvent_ckrem_irrel psB k rem c x (-1) delta src
    · exact absurd hc (by omega)


/-- Claim C5.  Inside a track, an event whose first byte is a data
byte (below 0x80) while status byte s is cached parses exactly like the
same event with s restored in front of it (the whole result coincides:
entity, parser and remaining input); and if no running status byte is
cached (run = -1), such an event fails with SMF_ERR_RUN_STATUS. -/
theorem c5_running_status :
    (∀ (ps : Parser) (d x : Nat) (rest : List Nat),
        ps.status = .headerSeen →
        0x80 ≤ ps.run → ps.run ≤ 0xef →
        d < 2 ^ 28 → x < 0x80 →
        ((encodeVar d).length : Int) + 1 ≤ ps.ckrem →
        readEvent { ps with ckrem := ps.ckrem + 1 }
            (encodeVar d ++ ps.run.toNat :: x :: rest) =
          readEvent ps (encodeVar d ++ x :: rest)) ∧
    (∀ (ps : Parser) (d x : Nat) (rest : List Nat),
        ps.status = .headerSeen →
        ps.run < 0 →
        d < 2 ^ 28 → x < 0x80 →
        ((encodeVar d).length : Int) + 1 ≤ ps.ckrem →
        readEvent ps (encodeVar d ++ x :: rest) = .error (.ferr .run_status)) := by
  constructor
  · intro ps d x rest hst hr0 hr1 hd hx hrem
    have hL0 : (0 : Int) ≤ ((encodeVar d).length : Int) := by positivity
    simp only [readEvent]
    rw [if_neg (show ¬(ps.status ≠ PStatus.headerSeen ∨ ps.ckrem + 1 < 0) from by
        rw [not_or]
        exact ⟨by simp [hst], by omega⟩),
      if_neg (show ¬(ps.status ≠ PStatus.headerSeen ∨ ps.ckrem < 0) from by
        rw [not_or]
        exact ⟨by simp [hst], by omega⟩)]
    rw [readChunkVar_encode d (ps.run.toNat :: x :: rest) (ps.ckrem + 1) hd (by omega),
      readChunkVar_encode d (x :: rest) ps.ckrem hd (by omega)]
    dsimp only
    rw [readChunkByte_cons ps.run.toNat (x :: rest)
        (ps.ckrem + 1 - ((encodeVar d).length : Int)) (by omega),
      readChunkByte_cons x rest (ps.ckrem - ((encodeVar d).length : Int)) (by omega)]
    dsimp only
    rw [if_neg (show ¬(ps.run.toNat < 0x80) by omega), if_pos hx,
      if_neg (show ¬(ps.run < 0) by omega)]
    rw [show ((ps.run.toNat : Nat) : Int) = ps.run from Int.toNat_of_nonneg (by omega)]
    rw [show ps.ckrem + 1 - ((encodeVar d).length : Int) - 1 =
        (ps.ckrem - ((encodeVar d).length : Int) - 1) + 1 from by ring]
    exact readEventBody_run_resolved _ _ (ps.ckrem + 1)
      (ps.ckrem - ((encodeVar d).length : Int) - 1) rest ps.run d x rfl (by omega) ⟨hr0, hr1⟩
  · intro ps d x rest hst hr hd hx hrem
    have hL0 : (0 : Int) ≤ ((encodeVar d).length : Int) := by positivity
    simp only [readEvent]
    rw [if_neg (show ¬(ps.status ≠ PStatus.headerSeen ∨ ps.ckrem < 0) from by
        rw [not_or]
        exact ⟨by simp [hst], by omega⟩)]
    rw [readChunkVar_encode d (x :: rest) ps.ckrem hd (by omega)]
    dsimp only
    rw [readChunkByte_cons x rest (ps.ckrem - ((encodeVar d).length : Int)) (by omega)]
    dsimp only
    rw [if_pos hx, if_pos (show ps.run < 0 from hr)]


/-- A parser inside a track with running status byte 0x90 cached. -/
def pRun : Parser := { pInit with status := .headerSeen, ckrem := 5, run := 0x90 }

/-- A parser inside a track with no cached running status byte. -/
def pNoRun : Parser := { pInit with status := .headerSeen, ckrem := 5 }

/-- Witness for C5: a running-status NOTE_ON parses like the explicit
one, and without a cached byte the RUN_STATUS error is raised. -/
theorem c5_witness :
    readEvent { pRun with ckrem := pRun.ckrem + 1 }
        (encodeVar 0 ++ pRun.run.toNat :: 60 :: [100]) =
      readEvent pRun (encodeVar 0 ++ 60 :: [100]) ∧
    readEvent pNoRun (encodeVar 0 ++ 60 :: [100]) = .error (.ferr .run_status) :=
  ⟨c5_running_status.1 pRun 0 60 [100] rfl (by decide) (by decide) (by decide)
      (by decide) (by decide),
   c5_running_status.2 pNoRun 0 60 [100] rfl (by decide) (by decide) (by decide)
      (by decide)⟩


/-! ## Payload buffering (claim C7) -/

/-- The reachable-state invariant of the parser data buffer: either not
yet allocated, or with capacity between 1 and BCAP_MAX covering the
current contents. -/
def bufInv (ps : Parser) : Prop :=
  (ps.bcap = 0 ∧ ps.data = []) ∨
    (1 ≤ ps.bcap ∧ ps.bcap ≤ 32768 ∧ ps.data.length ≤ ps.bcap)

/-- Fields of the parser that pushBuffer and readPayload never touch. -/
def sameCore (ps ps2 : Parser) : Prop :=
  ps2.status = ps.status ∧ ps2.ckrem = ps.ckrem ∧ ps2.trkcount = ps.trkcount ∧
    ps2.head = ps.head ∧ ps2.run = ps.run

lemma pushBuffer_success (ps : Parser) (c : Nat)
    (hinv : bufInv ps) (hc : c ≤ 255) (hlen : ps.data.length < 32768) :
    ∃ ps2, pushBuffer ps c = .ok (true, ps2) ∧ ps2.data = ps.data ++ [c] ∧
      bufInv ps2 ∧ sameCore ps ps2 := by
  unfold pushBuffer
  rw [if_neg (show ¬(c > 255) by omega)]
  rcases hinv with ⟨hb0, hd0⟩ | ⟨hb1, hb2, hb3⟩
  · rw [if_pos (show ps.bcap < 1 by omega)]
    dsimp only
    rw [hd0]
    rw [if_neg (show ¬(List.length (α := Nat) [] ≥ 256) by simp)]
    refine ⟨_, rfl, by simp [hd0], Or.inr (by simp), by simp [sameCore]⟩
  · rw [if_neg (show ¬(ps.bcap < 1) by omega)]
    by_cases hfull : ps.data.length ≥ ps.bcap
    · rw [if_pos hfull, if_neg (show ¬(ps.bcap ≥ 32768) by omega)]
      by_cases hd2 : ps.bcap * 2 > 32768
      · rw [if_pos hd2]
        refine ⟨_, rfl, by simp, Or.inr (by simp; omega), by simp [sameCore]⟩
      · rw [if_neg hd2]
        refine ⟨_, rfl, by simp, Or.inr (by simp; omega), by simp [sameCore]⟩
    · rw [if_neg hfull]
      refine ⟨_, rfl, by simp, Or.inr (by simp; omega), by simp [sameCore]⟩

lemma pushBuffer_fail (ps : Parser) (c : Nat)
    (hinv : bufInv ps) (hc : c ≤ 255) (hlen : ps.data.length = 32768) :
    ∃ ps2, pushBuffer ps c = .ok (false, ps2) := by
  unfold pushBuffer
  rw [if_neg (show ¬(c > 255) by omega)]
  rcases hinv with ⟨hb0, hd0⟩ | ⟨hb1, hb2, hb3⟩
  · rw [hd0] at hlen
    simp at hlen
  · rw [if_neg (show ¬(ps.bcap < 1) by omega),
      if_pos (show ps.data.length ≥ ps.bcap by omega),
      if_pos (show ps.bcap ≥ 32768 by omega)]
    exact ⟨_, rfl⟩

lemma readPayload_success : ∀ (payload : List Nat) (ps : Parser) (src : List Nat) (rem : Int),
    bufInv ps → (∀ b ∈ payload, b ≤ 255) →
    ps.data.length + payload.length ≤ 32768 →
    ((payload.length : Int)) ≤ rem →
    ∃ ps2, readPayload ps (payload ++ src) rem payload.length =
        .ok (ps2, src, rem - payload.length) ∧
      ps2.data = ps.data ++ payload ∧ bufInv ps2 ∧ sameCore ps ps2 := by
  intro payload
  induction payload with
  | nil =>
    intro ps src rem hinv hb hlen hrem
    exact ⟨ps, by simp [readPayload], by simp, hinv, by simp [sameCore]⟩
  | cons c tl ih =>
    intro ps src rem hinv hb hlen hrem
    simp only [List.length_cons] at hlen hrem ⊢
    rw [show ((c :: tl) ++ src) = c :: (tl ++ src) from rfl]
    rw [readPayload]
    rw [readChunkByte_cons c (tl ++ src) rem (by push_cast at hrem; omega)]
    dsimp only
    obtain ⟨ps2, hpb, hdata, hinv2, hcore⟩ :=
      pushBuffer_success ps c hinv (hb c (by simp)) (by omega)
    rw [hpb]
    dsimp only
    obtain ⟨ps3, hrp, hdata3, hinv3, hcore3⟩ :=
      ih ps2 src (rem - 1) hinv2 (fun b hbm => hb b (by simp [hbm]))
        (by rw [hdata]; simp; omega) (by push_cast at hrem ⊢; omega)
    refine ⟨ps3, ?_, ?_, hinv3, ?_⟩
    · rw [hrp]
      congr 1
      congr 1
      push_cast
      ring
    · rw [hdata3, hdata]
      simp
    · obtain ⟨c1, c2, c3, c4, c5⟩ := hcore
      obtain ⟨d1, d2, d3, d4, d5⟩ := hcore3
      exact ⟨by rw [d1, c1], by rw [d2, c2], by rw [d3, c3], by rw [d4, c4], by rw [d5, c5]⟩

lemma readPayload_fail : ∀ (payload : List Nat) (ps : Parser) (src : List Nat) (rem : Int),
    bufInv ps → (∀ b ∈ payload, b ≤ 255) →
    32768 < ps.data.length + payload.length →
    ((payload.length : Int)) ≤ rem →
    readPayload ps (payload ++ src) rem payload.length = .error (.ferr .big_payload) := by
  intro payload
  induction payload with
  | nil =>
    intro ps src rem hinv hb hlen hrem
    exfalso
    rcases hinv with ⟨h1, h2⟩ | ⟨h1, h2, h3⟩
    · rw [h2] at hlen
      simp at hlen
    · simp at hlen
      omega
  | cons c tl ih =>
    intro ps src rem hinv hb hlen hrem
    simp only [List.length_cons] at hlen hrem ⊢
    rw [show ((c :: tl) ++ src) = c :: (tl ++ src) from rfl]
    rw [readPayload]
    rw [readChunkByte_cons c (tl ++ src) rem (by push_cast at hrem; omega)]
    dsimp only
    by_cases hfull : ps.data.length < 32768
    · obtain ⟨ps2, hpb, hdata, hinv2, hcore⟩ :=
        pushBuffer_success ps c hinv (hb c (by simp)) hfull
      rw [hpb]
      dsimp only
      exact ih ps2 src (rem - 1) hinv2 (fun b hbm => hb b (by simp [hbm]))
        (by rw [hdata]; simp; omega) (by push_cast at hrem ⊢; omega)
    · have hlen2 : ps.data.length = 32768 := by
        rcases hinv with ⟨h1, h2⟩ | ⟨h1, h2, h3⟩
        · rw [h2] at hfull
          simp at hfull
        · omega
      obtain ⟨ps2, hpb⟩ := pushBuffer_fail ps c hinv (hb c (by simp)) hlen2
      rw [hpb]



/-- No meta-event validation path raises the BIG_PAYLOAD error. -/
lemma metaEvent_no_bigpayload (ps : Parser) (a delta : Int) :
    metaEvent ps a delta ≠ .error (.ferr .big_payload) := by
  intro h
  unfold metaEvent at h
  by_cases h0 : a = 0
  · rw [if_pos h0] at h
    rcases hdd : ps.data with _ | ⟨d0, _ | ⟨d1, _ | ⟨d2, tl⟩⟩⟩ <;> rw [hdd] at h <;>
      simp at h
  rw [if_neg h0] at h
  by_cases h1 : 1 ≤ a ∧ a ≤ 7
  · rw [if_pos h1] at h
    exact Except.noConfusion h
  rw [if_neg h1] at h
  by_cases h2 : a = 32
  · rw [if_pos h2] at h
    rcases hdd : ps.data with _ | ⟨d0, _ | ⟨d1, tl⟩⟩ <;> rw [hdd] at h <;> (try simp at h) <;>
      (repeat' split at h) <;> simp at h
  rw [if_neg h2] at h
  by_cases h3 : a = 47
  · rw [if_pos h3] at h
    repeat' split at h
    all_goals first | contradiction | simp at h
  rw [if_neg h3] at h
  by_cases h4 : a = 81
  · rw [if_pos h4] at h
    rcases hdd : ps.data with _ | ⟨d0, _ | ⟨d1, _ | ⟨d2, _ | ⟨d3, tl⟩⟩⟩⟩ <;> rw [hdd] at h <;> (try simp at h) <;>
      (repeat' split at h) <;> simp at h
  rw [if_neg h4] at h
  by_cases h5 : a = 84
  · rw [if_pos h5] at h
    rcases hdd : ps.data with
      _ | ⟨d0, _ | ⟨d1, _ | ⟨d2, _ | ⟨d3, _ | ⟨d4, _ | ⟨d5, tl⟩⟩⟩⟩⟩⟩ <;> rw [hdd] at h <;> (try simp at h) <;>
      (repeat' split at h) <;> simp at h
  rw [if_neg h5] at h
  by_cases h6 : a = 88
  · rw [if_pos h6] at h
    rcases hdd : ps.data with
      _ | ⟨d0, _ | ⟨d1, _ | ⟨d2, _ | ⟨d3, _ | ⟨d4, tl⟩⟩⟩⟩⟩ <;> rw [hdd] at h <;> (try simp at h) <;>
      (repeat' split at h) <;> simp at h
  rw [if_neg h6] at h
  by_cases h7 : a = 89
  · rw [if_pos h7] at h
    rcases hdd : ps.data with _ | ⟨d0, _ | ⟨d1, _ | ⟨d2, tl⟩⟩⟩ <;> rw [hdd] at h <;> (try simp at h) <;>
      (repeat' split at h) <;> simp at h
  rw [if_neg h7] at h
  exact Except.noConfusion h


/-- parseEvent never raises the BIG_PAYLOAD error: that error only
arises while buffering a payload in readEvent. -/
lemma parseEvent_no_bigpayload (ps : Parser) (ev a b delta : Int) :
    parseEvent ps ev a b delta ≠ .error (.ferr .big_payload) := by
  intro h
  unfold parseEvent at h
  by_cases g1 : ev < 0 ∨ ev > 255
  · rw [if_pos g1] at h
    simp at h
  rw [if_neg g1] at h
  by_cases g2 : a < -1 ∨ a > 255
  · rw [if_pos g2] at h
    simp at h
  rw [if_neg g2] at h
  by_cases g3 : b < -1 ∨ b > 255
  · rw [if_pos g3] at h
    simp at h
  rw [if_neg g3] at h
  by_cases g4 : 0 ≤ b ∧ a < 0
  · rw [if_pos g4] at h
    simp at h
  rw [if_neg g4] at h
  by_cases g5 : delta < 0 ∨ delta > 0xfffffff
  · rw [if_pos g5] at h
    simp at h
  rw [if_neg g5] at h
  by_cases g6 : ev = 0xf0 ∨ ev = 0xf7
  · rw [if_pos g6] at h
    repeat' split at h
    all_goals simp at h
  rw [if_neg g6] at h
  by_cases g7 : ev = 0xff
  · rw [if_pos g7] at h
    by_cases g8 : a = -1 ∨ b ≠ -1
    · rw [if_pos g8] at h
      simp at h
    · rw [if_neg g8] at h
      exact metaEvent_no_bigpayload ps a delta h
  rw [if_neg g7] at h
  by_cases g9 : 0x80 ≤ ev ∧ ev ≤ 0xef
  · rw [if_pos g9] at h
    by_cases m1 : (if ev - ev % 16 = 192 ∨ ev - ev % 16 = 208
        then a = -1 ∨ b ≠ -1 else a = -1 ∨ b = -1)
    · rw [if_pos m1] at h
      simp at h
    rw [if_neg m1] at h
    by_cases m2 : 0 ≤ a ∧ a > 0x7f
    · rw [if_pos m2] at h
      simp at h
    rw [if_neg m2] at h
    by_cases m3 : 0 ≤ b ∧ b > 0x7f
    · rw [if_pos m3] at h
      simp at h
    rw [if_neg m3] at h
    by_cases n1 : ev - ev % 16 = 128
    · rw [if_pos n1] at h
      simp at h
    rw [if_neg n1] at h
    by_cases n2 : ev - ev % 16 = 144
    · rw [if_pos n2] at h
      simp at h
    rw [if_neg n2] at h
    by_cases n3 : ev - ev % 16 = 160
    · rw [if_pos n3] at h
      simp at h
    rw [if_neg n3] at h
    by_cases n4 : ev - ev % 16 = 176
    · rw [if_pos n4] at h
      simp at h
    rw [if_neg n4] at h
    by_cases n5 : ev - ev % 16 = 192
    · rw [if_pos n5] at h
      simp at h
    rw [if_neg n5] at h
    by_cases n6 : ev - ev % 16 = 208
    · rw [if_pos n6] at h
      simp at h
    rw [if_neg n6] at h
    by_cases n7 : ev - ev % 16 = 224
    · rw [if_pos n7] at h
      simp at h
    rw [if_neg n7] at h
    simp at h
  rw [if_neg g9] at h
  simp at h

/-- The tail of readEvent after the payload has been buffered never
raises the BIG_PAYLOAD error. -/
lemma finishEvent_no_bigpayload (ps : Parser) (rem c a b delta : Int) (src : List Nat) :
    finishEvent ps rem c a b delta src ≠ .error (.ferr .big_payload) := by
  intro h
  unfold finishEvent at h
  by_cases g1 : a = 0x2f
  · simp only [if_pos g1] at h
    split at h
    · rename_i f heq
      injection h with hh
      rw [hh] at heq
      exact parseEvent_no_bigpayload _ _ _ _ _ heq
    · simp at h
  · simp only [if_neg g1] at h
    split at h
    · rename_i f heq
      injection h with hh
      rw [hh] at heq
      exact parseEvent_no_bigpayload _ _ _ _ _ heq
    · simp at h


/-- readEvent on a track event with an explicit status byte at least
0x80: the delta varint and the status byte are consumed and the rest of
the event is handled by the dispatch body. -/
lemma readEvent_to_body (ps : Parser) (d f : Nat) (tail : List Nat)
    (hst : ps.status = .headerSeen) (hd : d < 2 ^ 28) (hf : 128 ≤ f)
    (hrem : ((encodeVar d).length : Int) + 1 ≤ ps.ckrem) :
    readEvent ps (encodeVar d ++ f :: tail) =
      readEventBody { ps with data := [] }
        (ps.ckrem - (encodeVar d).length - 1) tail (f : Int) (-1) (d : Int) := by
  have hL0 : (0 : Int) ≤ ((encodeVar d).length : Int) := by positivity
  simp only [readEvent]
  rw [if_neg (show ¬(ps.status ≠ PStatus.headerSeen ∨ ps.ckrem < 0) from by
      rw [not_or]
      exact ⟨by simp [hst], by omega⟩)]
  rw [readChunkVar_encode d (f :: tail) ps.ckrem hd (by omega)]
  dsimp only
  rw [readChunkByte_cons f tail (ps.ckrem - ((encodeVar d).length : Int)) (by omega)]
  dsimp only
  rw [if_neg (show ¬(f < 0x80) by omega)]

lemma readEventBody_sysex (ps : Parser) (rem : Int) (L : Nat) (payload rest : List Nat)
    (f : Nat) (delta : Int)
    (hf : f = 0xf0 ∨ f = 0xf7) (hL : L < 2 ^ 28)
    (hrem : ((encodeVar L).length : Int) ≤ rem) :
    readEventBody ps rem (encodeVar L ++ (payload ++ rest)) (f : Int) (-1) delta =
      (match readPayload ps (payload ++ rest) (rem - (encodeVar L).length) L with
       | .error e => .error e
       | .ok (ps1, s2, r2) => finishEvent ps1 r2 (f : Int) (-1) (-1) delta s2) := by
  simp only [readEventBody]
  rw [if_neg (show ¬((0x80 ≤ (f : Int) ∧ (f : Int) ≤ 0xbf) ∨
      (0xe0 ≤ (f : Int) ∧ (f : Int) ≤ 0xef)) by omega),
    if_neg (show ¬(0xc0 ≤ (f : Int) ∧ (f : Int) ≤ 0xdf) by omega),
    if_pos (show (f : Int) = 0xf0 ∨ (f : Int) = 0xf7 by omega)]
  rw [readChunkVar_encode L (payload ++ rest) rem hL hrem]
  dsimp only
  rw [Int.toNat_natCast]

lemma readEventBody_meta (ps : Parser) (rem : Int) (L : Nat) (m : Nat)
    (payload rest : List Nat) (delta : Int)
    (hL : L < 2 ^ 28)
    (hrem : ((encodeVar L).length : Int) + 1 ≤ rem) :
    readEventBody ps rem (m :: (encodeVar L ++ (payload ++ rest))) (0xff : Int) (-1) delta =
      (match readPayload ps (payload ++ rest) (rem - 1 - (encodeVar L).length) L with
       | .error e => .error e
       | .ok (ps1, s2, r2) => finishEvent ps1 r2 (0xff : Int) (m : Int) (-1) delta s2) := by
  have hL0 : (0 : Int) ≤ ((encodeVar L).length : Int) := by positivity
  simp only [readEventBody]
  rw [if_neg (show ¬((0x80 ≤ (0xff : Int) ∧ (0xff : Int) ≤ 0xbf) ∨
      (0xe0 ≤ (0xff : Int) ∧ (0xff : Int) ≤ 0xef)) by norm_num),
    if_neg (show ¬(0xc0 ≤ (0xff : Int) ∧ (0xff : Int) ≤ 0xdf) by norm_num),
    if_neg (show ¬((0xff : Int) = 0xf0 ∨ (0xff : Int) = 0xf7) by norm_num),
    if_pos trivial]
  rw [readChunkByte_cons m _ rem (by omega)]
  dsimp only
  rw [readChunkVar_encode L (payload ++ rest) (rem - 1) hL (by omega)]
  dsimp only
  rw [Int.toNat_natCast]


lemma parseEvent_sysex (ps : Parser) (f : Nat) (delta : Int)
    (hf : f = 0xf0 ∨ f = 0xf7) (hd0 : 0 ≤ delta) (hd1 : delta ≤ 0xfffffff) :
    parseEvent ps (f : Int) (-1) (-1) delta =
      .ok ({ resetEntity with
               status := .etype (if (f : Int) = 0xf0 then .sysex else .sysesc)
               delta := delta
               buf_len := (ps.data.length : Int)
               buf := ps.data }, ps) := by
  unfold parseEvent
  rw [if_neg (show ¬((f : Int) < 0 ∨ (f : Int) > 255) by omega),
    if_neg (show ¬((-1 : Int) < -1 ∨ (-1 : Int) > 255) by norm_num),
    if_neg (show ¬((-1 : Int) < -1 ∨ (-1 : Int) > 255) by norm_num),
    if_neg (show ¬((0 : Int) ≤ -1 ∧ (-1 : Int) < 0) by norm_num),
    if_neg (show ¬(delta < 0 ∨ delta > 0xfffffff) by omega),
    if_pos (show (f : Int) = 0xf0 ∨ (f : Int) = 0xf7 by omega),
    if_neg (show ¬((-1 : Int) ≠ -1 ∨ (-1 : Int) ≠ -1) by norm_num)]

lemma finishEvent_sysex (ps : Parser) (rem delta : Int) (f : Nat) (src : List Nat)
    (hf : f = 0xf0 ∨ f = 0xf7) (hd0 : 0 ≤ delta) (hd1 : delta ≤ 0xfffffff) :
    finishEvent ps rem (f : Int) (-1) (-1) delta src =
      .ok ({ resetEntity with
               status := .etype (if (f : Int) = 0xf0 then .sysex else .sysesc)
               delta := delta
               buf_len := (ps.data.length : Int)
               buf := ps.data },
           { ps with run := -1, ckrem := rem }, src) := by
  unfold finishEvent
  rw [if_neg (show ¬(0x80 ≤ (f : Int) ∧ (f : Int) ≤ 0xef) by omega),
    if_neg (show ¬((-1 : Int) = 0x2f) by norm_num)]
  rw [parseEvent_sysex { ps with run := -1, ckrem := rem } f delta hf hd0 hd1]


/-- Counterexample to claim C7 as stated.  A Set Tempo meta-event with
declared payload length L = 3 (covered by chunk and input) parses
successfully, but the emitted entity carries buf_len = 0, not L: only
entities that reference the data buffer (sysex, sysex-escape, text,
custom meta) carry buf_len = L. -/
theorem c7_counterexample :
    readEvent { pInit with status := .headerSeen, ckrem := 7 }
        [0x00, 0xff, 0x51, 0x03, 0x07, 0xa1, 0x20] =
      .ok ({ resetEntity with status := .etype .tempo, delta := 0, beat_dur := 500000 },
           { pInit with status := .headerSeen, ckrem := 0, bcap := 256, data := [7, 161, 32] },
           []) ∧
    ({ resetEntity with status := .etype .tempo, delta := 0, beat_dur := (500000 : Int) } :
      Entity).buf_len = 0 :=
  ⟨by decide, by decide⟩

/-- Claim C7 as amended.  For a sysex (0xF0/0xF7) or meta (0xFF) event
whose declared payload length L is covered by the remaining chunk and
input: with L at most 32768 a sysex event is emitted carrying
buf_len = L and the payload in its buffer, and a meta event is never
rejected with BIG_PAYLOAD (the full payload is buffered; buf_len = L is
carried only by the entity kinds that reference the buffer); with L
above 32768 the read fails with SMF_ERR_BIG_PAYLOAD. -/
theorem c7_payload_cap :
    (∀ (ps : Parser) (d f L : Nat) (payload rest : List Nat),
        ps.status = .headerSeen → ps.bcap ≤ 32768 →
        (f = 0xf0 ∨ f = 0xf7) →
        d < 2 ^ 28 → L < 2 ^ 28 →
        payload.length = L → (∀ b ∈ payload, b ≤ 255) →
        L ≤ 32768 →
        ((encodeVar d).length : Int) + 1 + (encodeVar L).length + L ≤ ps.ckrem →
        ∃ ps2, readEvent ps (encodeVar d ++ f :: (encodeVar L ++ (payload ++ rest))) =
          .ok ({ resetEntity with
                   status := .etype (if (f : Int) = 0xf0 then .sysex else .sysesc)
                   delta := (d : Int)
                   buf_len := (L : Int)
                   buf := payload }, ps2, rest)) ∧
    (∀ (ps : Parser) (d f L : Nat) (payload rest : List Nat),
        ps.status = .headerSeen → ps.bcap ≤ 32768 →
        (f = 0xf0 ∨ f = 0xf7) →
        d < 2 ^ 28 → L < 2 ^ 28 →
        payload.length = L → (∀ b ∈ payload, b ≤ 255) →
        32768 < L →
        ((encodeVar d).length : Int) + 1 + (encodeVar L).length + L ≤ ps.ckrem →
        readEvent ps (encodeVar d ++ f :: (encodeVar L ++ (payload ++ rest))) =
          .error (.ferr .big_payload)) ∧
    (∀ (ps : Parser) (d m L : Nat) (payload rest : List Nat),
        ps.status = .headerSeen → ps.bcap ≤ 32768 →
        d < 2 ^ 28 → L < 2 ^ 28 →
        payload.length = L → (∀ b ∈ payload, b ≤ 255) →
        32768 < L →
        ((encodeVar d).length : Int) + 2 + (encodeVar L).length + L ≤ ps.ckrem →
        readEvent ps (encodeVar d ++ 0xff :: (m :: (encodeVar L ++ (payload ++ rest)))) =
          .error (.ferr .big_payload)) ∧
    (∀ (ps : Parser) (d m L : Nat) (payload rest : List Nat),
        ps.status = .headerSeen → ps.bcap ≤ 32768 →
        d < 2 ^ 28 → L < 2 ^ 28 →
        payload.length = L → (∀ b ∈ payload, b ≤ 255) →
        L ≤ 32768 →
        ((encodeVar d).length : Int) + 2 + (encodeVar L).length + L ≤ ps.ckrem →
        readEvent ps (encodeVar d ++ 0xff :: (m :: (encodeVar L ++ (payload ++ rest)))) ≠
          .error (.ferr .big_payload)) := by
  have hbufinv : ∀ ps : Parser, ps.bcap ≤ 32768 → bufInv { ps with data := [] } := by
    intro ps hb
    by_cases h0 : ps.bcap = 0
    · exact Or.inl ⟨h0, rfl⟩
    · right
      refine ⟨?_, ?_, ?_⟩
      · show 1 ≤ ps.bcap
        omega
      · show ps.bcap ≤ 32768
        exact hb
      · show ([] : List Nat).length ≤ ps.bcap
        simp
  refine ⟨?_, ?_, ?_, ?_⟩
  · intro ps d f L payload rest hst hbcap hf hd hL hlen hbytes hLcap hrem
    subst hlen
    have hL0 : (0 : Int) ≤ ((encodeVar d).length : Int) := by positivity
    have hLL0 : (0 : Int) ≤ ((encodeVar payload.length).length : Int) := by positivity
    rw [readEvent_to_body ps d f _ hst hd (by omega) (by omega)]
    rw [readEventBody_sysex _ _ payload.length payload rest f _ hf hL (by omega)]
    obtain ⟨ps2, hrp, hdata2, hinv2, hcore2⟩ :=
      readPayload_success payload { ps with data := [] } rest
        (ps.ckrem - (encodeVar d).length - 1 - (encodeVar payload.length).length)
        (hbufinv ps hbcap) hbytes (by simpa using hLcap) (by omega)
    rw [hrp]
    dsimp only
    rw [finishEvent_sysex ps2 _ (d : Int) f rest hf (by positivity) (by omega)]
    rw [hdata2]
    simp only [List.nil_append]
    exact ⟨_, rfl⟩
  · intro ps d f L payload rest hst hbcap hf hd hL hlen hbytes hbig hrem
    subst hlen
    have hL0 : (0 : Int) ≤ ((encodeVar d).length : Int) := by positivity
    have hLL0 : (0 : Int) ≤ ((encodeVar payload.length).length : Int) := by positivity
    rw [readEvent_to_body ps d f _ hst hd (by omega) (by omega)]
    rw [readEventBody_sysex _ _ payload.length payload rest f _ hf hL (by omega)]
    rw [readPayload_fail payload { ps with data := [] } rest
        (ps.ckrem - (encodeVar d).length - 1 - (encodeVar payload.length).length)
        (hbufinv ps hbcap) hbytes (by simpa using hbig) (by omega)]
  · intro ps d m L payload rest hst hbcap hd hL hlen hbytes hbig hrem
    subst hlen
    have hL0 : (0 : Int) ≤ ((encodeVar d).length : Int) := by positivity
    have hLL0 : (0 : Int) ≤ ((encodeVar payload.length).length : Int) := by positivity
    rw [readEvent_to_body ps d 0xff _ hst hd (by omega) (by omega)]
    rw [show ((0xff : Nat) : Int) = (0xff : Int) from by norm_num]
    rw [readEventBody_meta _ _ payload.length m payload rest _ hL (by omega)]
    rw [readPayload_fail payload { ps with data := [] } rest
        (ps.ckrem - (encodeVar d).length - 1 - 1 - (encodeVar payload.length).length)
        (hbufinv ps hbcap) hbytes (by simpa using hbig) (by omega)]
  · intro ps d m L payload rest hst hbcap hd hL hlen hbytes hLcap hrem
    subst hlen
    have hL0 : (0 : Int) ≤ ((encodeVar d).length : Int) := by positivity
    have hLL0 : (0 : Int) ≤ ((encodeVar payload.length).length : Int) := by positivity
    rw [readEvent_to_body ps d 0xff _ hst hd (by omega) (by omega)]
    rw [show ((0xff : Nat) : Int) = (0xff : Int) from by norm_num]
    rw [readEventBody_meta _ _ payload.length m payload rest _ hL (by omega)]
    obtain ⟨ps2, hrp, hdata2, hinv2, hcore2⟩ :=
      readPayload_success payload { ps with data := [] } rest
        (ps.ckrem - (encodeVar d).length - 1 - 1 - (encodeVar payload.length).length)
        (hbufinv ps hbcap) hbytes (by simpa using hLcap) (by omega)
    rw [hrp]
    dsimp only
    exact finishEvent_no_bigpayload _ _ _ _ _ _ _



/-- Witness for C7: a two-byte sysex payload is read with buf_len = 2,
and a meta payload of 32769 bytes is rejected with BIG_PAYLOAD. -/
theorem c7_witness :
    (∃ ps2, readEvent { pInit with status := .headerSeen, ckrem := 10 }
        (encodeVar 0 ++ 240 :: (encodeVar 2 ++ ([1, 2] ++ []))) =
      .ok ({ resetEntity with
               status := .etype (if ((240 : Nat) : Int) = 0xf0 then .sysex else .sysesc)
               delta := ((0 : Nat) : Int)
               buf_len := ((2 : Nat) : Int)
               buf := [1, 2] }, ps2, [])) ∧
    readEvent { pInit with status := .headerSeen, ckrem := 40000 }
        (encodeVar 0 ++ 240 :: (encodeVar 32769 ++ (List.replicate 32769 0 ++ []))) =
      .error (.ferr .big_payload) :=
  ⟨c7_payload_cap.1 { pInit with status := .headerSeen, ckrem := 10 } 0 240 2 [1, 2] []
      rfl (by decide) (Or.inl rfl) (by decide) (by decide) rfl
      (by decide) (by decide) (by decide),
   c7_payload_cap.2.1 { pInit with status := .headerSeen, ckrem := 40000 } 0 240 32769
      (List.replicate 32769 0) [] rfl (by decide) (Or.inl rfl) (by decide) (by decide)
      (List.length_replicate 32769 0)
      (fun b hb => by rw [List.eq_of_mem_replicate hb]; exact Nat.zero_le 255)
      (by decide) (by decide)⟩

end Smfparse
